import Mathlib

/-!
Verification of the fixed-capacity circular order book (`src/orderbook.rs`).

The Rust code is shallowly embedded:

* `Price` (Rust `i64`) is modelled as `Int`; the code's `wrapping_sub` /
  `wrapping_add` on `i64` are modelled by `wrap64`, two's-complement
  reduction into `[-2^63, 2^63)`.
* `Quantity` (Rust unsigned) is modelled as `Nat`; the spec treats
  quantities as abstract unsigned integers.  The `u64` subtractions in
  the source cannot underflow on states satisfying the accounting
  invariant (proved below), which holds on all reachable states.
* the two level arrays of length `CAP` are modelled as functions
  `Nat → Nat` read only at indices `< CAP`; writes are
  `Function.update`.  Bounds-checked variants (`checked_read`,
  `checked_write`, and the `..._checked` operations) return `Option`
  and are used to state that no access ever goes out of bounds.
* `index.wrapping_sub(best) & CAP_MASK` on `usize` equals the
  mathematical `(index - best) mod 4096` because reduction mod `2^64`
  followed by masking with `4095` is reduction mod `4096`; it is
  written here as `Int.emod` by `CAP_I64`, whose result is in
  `[0, 4096)`.
-/

set_option maxRecDepth 100000

def CAP : Nat := 4096

def CAP_MASK : Nat := CAP - 1

def HALF_CAP : Int := 2048

def CAP_I64 : Int := 4096

inductive Side where
  | Bid
  | Ask
deriving DecidableEq

inductive Update where
  | Set (price : Int) (quantity : Nat) (side : Side)
  | Remove (price : Int) (side : Side)
deriving DecidableEq

/-- Two's-complement wraparound of an `i64` value: the representative of
`x` modulo `2^64` lying in `[-2^63, 2^63)`. -/
def wrap64 (x : Int) : Int :=
  (x + 9223372036854775808) % 18446744073709551616 - 9223372036854775808

/-- Reinterpretation of an `i64` bit pattern as a `u64` (the Rust
`as usize` cast on a 64-bit target). -/
def i64_as_u64 (x : Int) : Nat :=
  (x % 18446744073709551616).toNat

structure OrderBookImpl where
  bids : Nat → Nat
  asks : Nat → Nat
  anchor_price : Int
  best_bid_idx : Nat
  best_ask_idx : Nat
  total_bid_quantity : Nat
  total_ask_quantity : Nat

def OrderBookImpl.new : OrderBookImpl :=
  { bids := fun _ => 0
    asks := fun _ => 0
    anchor_price := 10000
    best_bid_idx := 0
    best_ask_idx := CAP_MASK
    total_ask_quantity := 0
    total_bid_quantity := 0 }

/-- Rust: `(price.wrapping_sub(self.anchor_price) as usize) & CAP_MASK`. -/
def price_to_index (anchor price : Int) : Nat :=
  i64_as_u64 (wrap64 (price - anchor)) &&& CAP_MASK

/-- Rust `index_to_price`: treat the slot as an offset, subtract `CAP`
from offsets above `HALF_CAP`, and add to the anchor with `i64`
wraparound (`wrapping_add` twice). -/
def index_to_price (anchor : Int) (index : Nat) : Int :=
  let offset : Int := (index : Int)
  let adjustment : Int := if offset > HALF_CAP then -CAP_I64 else 0
  wrap64 (wrap64 (anchor + offset) + adjustment)

/-- Rust `recalculate_best_index`, Bid arm: `for i in (0..n).rev()`,
returning the first slot with positive quantity, and `0` if none. -/
def scanDown (book : Nat → Nat) : Nat → Nat
  | 0 => 0
  | i + 1 => if 0 < book i then i else scanDown book i

/-- Rust `recalculate_best_index`, Ask arm: `for i in 0..CAP` starting
at `i`, with `fuel` iterations left, returning the first slot with
positive quantity and `CAP_MASK` if none. -/
def scanUp (book : Nat → Nat) : Nat → Nat → Nat
  | 0, _ => CAP_MASK
  | fuel + 1, i => if 0 < book i then i else scanUp book fuel (i + 1)

def recalculate_best_index (side : Side) (book : Nat → Nat) : Nat :=
  match side with
  | .Bid => scanDown book CAP
  | .Ask => scanUp book CAP 0

/-- Rust `apply_update`.  The update is applied to the book state `s`. -/
def apply_update (s : OrderBookImpl) (u : Update) : OrderBookImpl :=
  match u with
  | .Set price quantity side =>
    let index := price_to_index s.anchor_price price
    match side with
    | .Bid =>
      let old_quantity := s.bids index
      if 0 < quantity then
        let bids' := Function.update s.bids index quantity
        let total' := if old_quantity = 0 then s.total_bid_quantity + quantity
          else s.total_bid_quantity - old_quantity + quantity
        let best' := if total' = quantity then index
          else if ((index : Int) - (s.best_bid_idx : Int)) % CAP_I64 < HALF_CAP then index
          else s.best_bid_idx
        { s with bids := bids', best_bid_idx := best', total_bid_quantity := total' }
      else if 0 < old_quantity then
        let bids' := Function.update s.bids index 0
        { s with bids := bids'
                 best_bid_idx :=
                   if index = s.best_bid_idx then recalculate_best_index .Bid bids'
                   else s.best_bid_idx
                 total_bid_quantity := s.total_bid_quantity - old_quantity }
      else s
    | .Ask =>
      let old_quantity := s.asks index
      if 0 < quantity then
        let asks' := Function.update s.asks index quantity
        let total' := if old_quantity = 0 then s.total_ask_quantity + quantity
          else s.total_ask_quantity - old_quantity + quantity
        let best' := if total' = quantity then index
          else if ((s.best_ask_idx : Int) - (index : Int)) % CAP_I64 < HALF_CAP then index
          else s.best_ask_idx
        { s with asks := asks', best_ask_idx := best', total_ask_quantity := total' }
      else if 0 < old_quantity then
        let asks' := Function.update s.asks index 0
        { s with asks := asks'
                 best_ask_idx :=
                   if index = s.best_ask_idx then recalculate_best_index .Ask asks'
                   else s.best_ask_idx
                 total_ask_quantity := s.total_ask_quantity - old_quantity }
      else s
  | .Remove price side =>
    let index := price_to_index s.anchor_price price
    match side with
    | .Bid =>
      let removed_quantity := s.bids index
      if 0 < removed_quantity then
        let bids' := Function.update s.bids index 0
        { s with bids := bids'
                 best_bid_idx :=
                   if index = s.best_bid_idx then recalculate_best_index .Bid bids'
                   else s.best_bid_idx
                 total_bid_quantity := s.total_bid_quantity - removed_quantity }
      else s
    | .Ask =>
      let removed_quantity := s.asks index
      if 0 < removed_quantity then
        let asks' := Function.update s.asks index 0
        { s with asks := asks'
                 best_ask_idx :=
                   if index = s.best_ask_idx then recalculate_best_index .Ask asks'
                   else s.best_ask_idx
                 total_ask_quantity := s.total_ask_quantity - removed_quantity }
      else s

def get_spread (s : OrderBookImpl) : Option Int :=
  if s.total_bid_quantity = 0 ∨ s.total_ask_quantity = 0 then none
  else
    let bid := index_to_price s.anchor_price s.best_bid_idx
    let ask := index_to_price s.anchor_price s.best_ask_idx
    some (ask - bid)

def get_best_bid (s : OrderBookImpl) : Option Int :=
  if s.total_bid_quantity = 0 then none
  else some (index_to_price s.anchor_price s.best_bid_idx)

def get_best_ask (s : OrderBookImpl) : Option Int :=
  if s.total_ask_quantity = 0 then none
  else some (index_to_price s.anchor_price s.best_ask_idx)

def get_quantity_at (s : OrderBookImpl) (price : Int) (side : Side) : Option Nat :=
  let index := price_to_index s.anchor_price price
  let qty := match side with
    | .Bid => s.bids index
    | .Ask => s.asks index
  if 0 < qty then some qty else none

/-- Rust `get_top_levels`, Bid arm: scan slots downward from `i - 1`,
pushing live levels onto `result` and stopping as soon as
`result.len() >= n` after a push. -/
def top_levels_down (anchor : Int) (book : Nat → Nat) (n : Nat) :
    Nat → List (Int × Nat) → List (Int × Nat)
  | 0, result => result
  | i + 1, result =>
    let qty := book i
    if 0 < qty then
      let result' := result ++ [(index_to_price anchor i, qty)]
      if n ≤ result'.length then result'
      else top_levels_down anchor book n i result'
    else top_levels_down anchor book n i result

/-- Rust `get_top_levels`, Ask arm: scan slots upward from `i` with
`fuel` iterations left. -/
def top_levels_up (anchor : Int) (book : Nat → Nat) (n : Nat) :
    Nat → Nat → List (Int × Nat) → List (Int × Nat)
  | 0, _, result => result
  | fuel + 1, i, result =>
    let qty := book i
    if 0 < qty then
      let result' := result ++ [(index_to_price anchor i, qty)]
      if n ≤ result'.length then result'
      else top_levels_up anchor book n fuel (i + 1) result'
    else top_levels_up anchor book n fuel (i + 1) result

def get_top_levels (s : OrderBookImpl) (side : Side) (n : Nat) : List (Int × Nat) :=
  match side with
  | .Bid => top_levels_down s.anchor_price s.bids n CAP []
  | .Ask => top_levels_up s.anchor_price s.asks n CAP 0 []

def get_total_quantity (s : OrderBookImpl) (side : Side) : Nat :=
  match side with
  | .Bid => s.total_bid_quantity
  | .Ask => s.total_ask_quantity

/-- The book state reached from `new()` by a sequence of updates. -/
def applyUpdates (us : List Update) : OrderBookImpl :=
  us.foldl apply_update OrderBookImpl.new

/-- Side-indexed view of the level arrays. -/
def sideBookOf (s : OrderBookImpl) (side : Side) : Nat → Nat :=
  match side with
  | .Bid => s.bids
  | .Ask => s.asks

/-- Side-indexed view of the cached best slot. -/
def bestIdxOf (s : OrderBookImpl) (side : Side) : Nat :=
  match side with
  | .Bid => s.best_bid_idx
  | .Ask => s.best_ask_idx

example : get_best_bid (applyUpdates [Update.Set 10005 3 Side.Bid]) = some 10005 := by decide

example : get_total_quantity (applyUpdates [Update.Set 10005 3 Side.Bid]) Side.Bid = 3 := by decide

example :
    get_spread (applyUpdates [Update.Set 10005 3 Side.Bid, Update.Set 10010 2 Side.Ask]) =
      some 5 := by decide

/-! ### Arithmetic bridges for the slot mapping -/

lemma price_to_index_eq (anchor price : Int) :
    price_to_index anchor price = ((price - anchor) % 4096).toNat := by
  unfold price_to_index i64_as_u64 wrap64 CAP_MASK CAP
  have hmask : (4096 : Nat) - 1 = 2 ^ 12 - 1 := by norm_num
  rw [hmask, Nat.and_pow_two_sub_one_eq_mod]
  have h2 : (2 : Nat) ^ 12 = 4096 := by norm_num
  rw [h2]
  omega

lemma price_to_index_lt (anchor price : Int) : price_to_index anchor price < CAP := by
  rw [price_to_index_eq]
  unfold CAP
  omega

lemma wrap64_eq_self {x : Int} (h1 : -9223372036854775808 ≤ x)
    (h2 : x < 9223372036854775808) : wrap64 x = x := by
  unfold wrap64
  omega

/-- Composition law for chained `wrapping_add`. -/
lemma wrap64_add_wrap (x y : Int) : wrap64 (wrap64 x + y) = wrap64 (x + y) := by
  unfold wrap64
  omega

/-- Closed form of `index_to_price` when no `i64` overflow occurs. -/
lemma index_to_price_eq (anchor : Int) (i : Nat) (hi : i < CAP)
    (h1 : -9223372036854773760 ≤ anchor)
    (h2 : anchor + 4095 < 9223372036854775808) :
    index_to_price anchor i =
      anchor + (i : Int) + (if (2048 : Int) < (i : Int) then -4096 else 0) := by
  unfold index_to_price HALF_CAP CAP_I64
  unfold CAP at hi
  have hii : (i : Int) ≤ 4095 := by omega
  have hi0 : (0 : Int) ≤ (i : Int) := by omega
  dsimp only
  rw [wrap64_add_wrap]
  split_ifs with h
  · rw [wrap64_eq_self (by omega) (by omega)]
  · rw [wrap64_eq_self (by omega) (by omega)]

/-- C4: for every price `p` with anchor `a` fixed at construction and
`CAP = 4096`, if `p` lies in the window `(a - CAP/2, a + CAP/2]` then
`index_to_price (price_to_index p) = p`: the slot mapping and its
inverse round-trip exactly inside the representable window. -/
theorem c4_slot_roundtrip (a p : Int)
    (ha1 : -9223372036854775808 ≤ a) (ha2 : a < 9223372036854775808)
    (hp1 : -9223372036854775808 ≤ p) (hp2 : p < 9223372036854775808)
    (hw1 : a - 2048 < p) (hw2 : p ≤ a + 2048) :
    index_to_price a (price_to_index a p) = p := by
  rw [price_to_index_eq]
  have hk : ((((p - a) % 4096).toNat : Nat) : Int) = (p - a) % 4096 :=
    Int.toNat_of_nonneg (Int.emod_nonneg _ (by norm_num))
  unfold index_to_price HALF_CAP CAP_I64
  dsimp only
  rw [wrap64_add_wrap]
  split_ifs with h
  · have hx : a + (((p - a) % 4096).toNat : Int) + -4096 = p := by omega
    rw [hx, wrap64_eq_self hp1 hp2]
  · have hx : a + (((p - a) % 4096).toNat : Int) + 0 = p := by omega
    rw [hx, wrap64_eq_self hp1 hp2]

theorem c4_slot_roundtrip_witness :
    ((-9223372036854775808 ≤ (10000 : Int)) ∧ ((10000 : Int) < 9223372036854775808) ∧
      (-9223372036854775808 ≤ (10005 : Int)) ∧ ((10005 : Int) < 9223372036854775808) ∧
      ((10000 : Int) - 2048 < 10005) ∧ ((10005 : Int) ≤ 10000 + 2048)) ∧
    index_to_price 10000 (price_to_index 10000 10005) = 10005 :=
  ⟨⟨by decide, by decide, by decide, by decide, by decide, by decide⟩,
    c4_slot_roundtrip 10000 10005 (by decide) (by decide) (by decide) (by decide)
      (by decide) (by decide)⟩

/-! ### Accounting: side totals equal the sum of the slots -/

/-- Sum of all slots of one side's array. -/
def sumSide (book : Nat → Nat) : Nat := ∑ i in Finset.range CAP, book i

lemma sum_update (book : Nat → Nat) (i v : Nat) (h : i < CAP) :
    sumSide (Function.update book i v) + book i = sumSide book + v := by
  unfold sumSide
  have hmem : i ∈ Finset.range CAP := Finset.mem_range.mpr h
  rw [← Finset.add_sum_erase _ (Function.update book i v) hmem,
      ← Finset.add_sum_erase _ book hmem]
  have hcongr : ∑ j in (Finset.range CAP).erase i, Function.update book i v j
      = ∑ j in (Finset.range CAP).erase i, book j := by
    apply Finset.sum_congr rfl
    intro j hj
    exact Function.update_noteq (Finset.ne_of_mem_erase hj) _ _
  rw [hcongr, Function.update_same]
  omega

lemma le_sumSide (book : Nat → Nat) (i : Nat) (h : i < CAP) : book i ≤ sumSide book :=
  Finset.single_le_sum (fun j _ => Nat.zero_le (book j)) (Finset.mem_range.mpr h)

/-- The incremental accounting invariant: each side's cached total equals
the sum of its slots. -/
def accOK (s : OrderBookImpl) : Prop :=
  s.total_bid_quantity = sumSide s.bids ∧ s.total_ask_quantity = sumSide s.asks

lemma accOK_new : accOK OrderBookImpl.new := by
  constructor <;> simp [OrderBookImpl.new, sumSide]

lemma accOK_step (s : OrderBookImpl) (u : Update) (h : accOK s) : accOK (apply_update s u) := by
  obtain ⟨hb, ha⟩ := h
  rcases u with ⟨price, quantity, side⟩ | ⟨price, side⟩ <;> rcases side
  · have hiC : price_to_index s.anchor_price price < CAP := price_to_index_lt _ _
    have hq := sum_update s.bids (price_to_index s.anchor_price price) quantity hiC
    have hz := sum_update s.bids (price_to_index s.anchor_price price) 0 hiC
    have hle := le_sumSide s.bids (price_to_index s.anchor_price price) hiC
    unfold apply_update
    dsimp only
    split_ifs <;> refine ⟨?_, ?_⟩ <;> (try dsimp only) <;> omega
  · have hiC : price_to_index s.anchor_price price < CAP := price_to_index_lt _ _
    have hq := sum_update s.asks (price_to_index s.anchor_price price) quantity hiC
    have hz := sum_update s.asks (price_to_index s.anchor_price price) 0 hiC
    have hle := le_sumSide s.asks (price_to_index s.anchor_price price) hiC
    unfold apply_update
    dsimp only
    split_ifs <;> refine ⟨?_, ?_⟩ <;> (try dsimp only) <;> omega
  · have hiC : price_to_index s.anchor_price price < CAP := price_to_index_lt _ _
    have hz := sum_update s.bids (price_to_index s.anchor_price price) 0 hiC
    have hle := le_sumSide s.bids (price_to_index s.anchor_price price) hiC
    unfold apply_update
    dsimp only
    split_ifs <;> refine ⟨?_, ?_⟩ <;> (try dsimp only) <;> omega
  · have hiC : price_to_index s.anchor_price price < CAP := price_to_index_lt _ _
    have hz := sum_update s.asks (price_to_index s.anchor_price price) 0 hiC
    have hle := le_sumSide s.asks (price_to_index s.anchor_price price) hiC
    unfold apply_update
    dsimp only
    split_ifs <;> refine ⟨?_, ?_⟩ <;> (try dsimp only) <;> omega

lemma accOK_foldl (us : List Update) : ∀ s, accOK s → accOK (us.foldl apply_update s) := by
  induction us with
  | nil => exact fun s h => h
  | cons u rest ih => exact fun s h => ih _ (accOK_step s u h)

lemma accOK_applyUpdates (us : List Update) : accOK (applyUpdates us) :=
  accOK_foldl us _ accOK_new

lemma anchor_step (s : OrderBookImpl) (u : Update) :
    (apply_update s u).anchor_price = s.anchor_price := by
  rcases u with ⟨price, quantity, side⟩ | ⟨price, side⟩ <;> rcases side <;>
    (unfold apply_update; dsimp only; split_ifs <;> rfl)

lemma anchor_applyUpdates (us : List Update) : (applyUpdates us).anchor_price = 10000 := by
  suffices h : ∀ s : OrderBookImpl, (us.foldl apply_update s).anchor_price = s.anchor_price by
    exact h OrderBookImpl.new
  induction us with
  | nil => exact fun s => rfl
  | cons u rest ih => exact fun s => (ih (apply_update s u)).trans (anchor_step s u)

/-- C2: for every book state reachable from `new()` by any sequence of
`apply_update` calls (which covers every step of every sequence, since
the sequence is arbitrary), `get_total_quantity side` equals the sum of
the quantities of all non-zero slots of that side's array, for both
sides. -/
theorem c2_total_accounting (us : List Update) (side : Side) :
    get_total_quantity (applyUpdates us) side =
      ∑ i in (Finset.range CAP).filter (fun i => sideBookOf (applyUpdates us) side i ≠ 0),
        sideBookOf (applyUpdates us) side i := by
  have hacc : accOK (applyUpdates us) := accOK_applyUpdates us
  rw [Finset.sum_filter_ne_zero]
  rcases side
  · exact hacc.1
  · exact hacc.2

/-! ### Removal behaviour -/

/-- C9: for every book state, price and side, `Set { price, quantity: 0 }`
produces exactly the same resulting book state as `Remove { price }`:
the zero-quantity Set path and the Remove path are equivalent state
transformers. -/
theorem c9_set_zero_is_remove (s : OrderBookImpl) (p : Int) (side : Side) :
    apply_update s (Update.Set p 0 side) = apply_update s (Update.Remove p side) := by
  rcases side <;> (unfold apply_update; dsimp only; rw [if_neg (lt_irrefl 0)])

lemma remove_sets_slot_zero (s : OrderBookImpl) (p : Int) (side : Side) :
    sideBookOf (apply_update s (Update.Remove p side)) side
      (price_to_index s.anchor_price p) = 0 := by
  rcases side <;>
    (unfold apply_update sideBookOf
     dsimp only
     split_ifs <;> first | (dsimp only; rw [Function.update_same]) | omega)

lemma remove_noop (s : OrderBookImpl) (p : Int) (side : Side)
    (h : sideBookOf s side (price_to_index s.anchor_price p) = 0) :
    apply_update s (Update.Remove p side) = s := by
  rcases side
  · have hb : s.bids (price_to_index s.anchor_price p) = 0 := h
    unfold apply_update
    dsimp only
    rw [if_neg (show ¬0 < s.bids (price_to_index s.anchor_price p) by omega)]
  · have hb : s.asks (price_to_index s.anchor_price p) = 0 := h
    unfold apply_update
    dsimp only
    rw [if_neg (show ¬0 < s.asks (price_to_index s.anchor_price p) by omega)]

lemma set_zero_noop (s : OrderBookImpl) (p : Int) (side : Side)
    (h : sideBookOf s side (price_to_index s.anchor_price p) = 0) :
    apply_update s (Update.Set p 0 side) = s :=
  (c9_set_zero_is_remove s p side).trans (remove_noop s p side h)

/-- Equality of everything the query surface can observe. -/
def sameObservables (s t : OrderBookImpl) : Prop :=
  (∀ side, get_total_quantity s side = get_total_quantity t side) ∧
  (∀ price side, get_quantity_at s price side = get_quantity_at t price side) ∧
  get_best_bid s = get_best_bid t ∧ get_best_ask s = get_best_ask t ∧
  get_spread s = get_spread t

lemma sameObservables_refl (s : OrderBookImpl) : sameObservables s s :=
  ⟨fun _ => rfl, fun _ _ => rfl, rfl, rfl, rfl⟩

/-- C8: applying `Remove(p, side)` twice in a row, or `Set(p, 0, side)`
when the level at `p` is already absent, leaves all observable state
(totals, per-price quantities, best bid, best ask, spread) unchanged
after the second (respectively the redundant) call. -/
theorem c8_idempotent_removal (s : OrderBookImpl) (p : Int) (side : Side) :
    sameObservables
      (apply_update (apply_update s (Update.Remove p side)) (Update.Remove p side))
      (apply_update s (Update.Remove p side)) ∧
    (sideBookOf s side (price_to_index s.anchor_price p) = 0 →
      sameObservables (apply_update s (Update.Set p 0 side)) s) := by
  constructor
  · have hz : sideBookOf (apply_update s (Update.Remove p side)) side
        (price_to_index (apply_update s (Update.Remove p side)).anchor_price p) = 0 := by
      rw [anchor_step]
      exact remove_sets_slot_zero s p side
    rw [remove_noop _ p side hz]
    exact sameObservables_refl _
  · intro h
    rw [set_zero_noop s p side h]
    exact sameObservables_refl s

theorem c8_idempotent_removal_witness :
    sideBookOf OrderBookImpl.new Side.Bid
      (price_to_index OrderBookImpl.new.anchor_price 10005) = 0 ∧
    sameObservables (apply_update OrderBookImpl.new (Update.Set 10005 0 Side.Bid))
      OrderBookImpl.new :=
  ⟨rfl, (c8_idempotent_removal OrderBookImpl.new 10005 Side.Bid).2 rfl⟩

/-! ### Spread -/

/-- C10: `get_spread` returns `none` iff at least one side has total
quantity `0`; otherwise it returns `some` of the cached best ask price
minus the cached best bid price (the same prices `get_best_ask` and
`get_best_bid` return), and the value can be negative on a crossed
book, as the exhibited reachable state shows. -/
theorem c10_spread (s : OrderBookImpl) :
    (get_spread s = none ↔
      get_total_quantity s Side.Bid = 0 ∨ get_total_quantity s Side.Ask = 0) ∧
    (get_total_quantity s Side.Bid ≠ 0 → get_total_quantity s Side.Ask ≠ 0 →
      get_spread s = some (index_to_price s.anchor_price s.best_ask_idx -
          index_to_price s.anchor_price s.best_bid_idx) ∧
        get_best_bid s = some (index_to_price s.anchor_price s.best_bid_idx) ∧
        get_best_ask s = some (index_to_price s.anchor_price s.best_ask_idx)) ∧
    (∃ us : List Update, get_spread (applyUpdates us) = some (-5)) := by
  have hbid : get_total_quantity s Side.Bid = s.total_bid_quantity := rfl
  have hask : get_total_quantity s Side.Ask = s.total_ask_quantity := rfl
  refine ⟨?_, ?_, ?_⟩
  · rw [hbid, hask]
    unfold get_spread
    split_ifs with h
    · simpa using h
    · simpa using h
  · intro h1 h2
    rw [hbid] at h1
    rw [hask] at h2
    unfold get_spread get_best_bid get_best_ask
    rw [if_neg (not_or.mpr ⟨h1, h2⟩), if_neg h1, if_neg h2]
    exact ⟨rfl, rfl, rfl⟩
  · exact ⟨[Update.Set 10010 1 Side.Bid, Update.Set 10005 1 Side.Ask], by decide⟩

theorem c10_spread_witness :
    get_total_quantity (applyUpdates [Update.Set 10010 1 Side.Bid,
        Update.Set 10005 1 Side.Ask]) Side.Bid ≠ 0 ∧
    get_total_quantity (applyUpdates [Update.Set 10010 1 Side.Bid,
        Update.Set 10005 1 Side.Ask]) Side.Ask ≠ 0 ∧
    (get_spread (applyUpdates [Update.Set 10010 1 Side.Bid, Update.Set 10005 1 Side.Ask]) =
      some (index_to_price (applyUpdates [Update.Set 10010 1 Side.Bid,
          Update.Set 10005 1 Side.Ask]).anchor_price
          (applyUpdates [Update.Set 10010 1 Side.Bid,
            Update.Set 10005 1 Side.Ask]).best_ask_idx -
        index_to_price (applyUpdates [Update.Set 10010 1 Side.Bid,
            Update.Set 10005 1 Side.Ask]).anchor_price
          (applyUpdates [Update.Set 10010 1 Side.Bid,
            Update.Set 10005 1 Side.Ask]).best_bid_idx)) :=
  ⟨by decide, by decide,
    ((c10_spread (applyUpdates [Update.Set 10010 1 Side.Bid,
      Update.Set 10005 1 Side.Ask])).2.1 (by decide) (by decide)).1⟩

/-! ### The O(1) best-index adoption rule -/

/-- C3 (amended): in `apply_update` of `Set(price, quantity, side)`
with `quantity > 0`, when the fast empty-side path does not fire (the
code's check `total' == quantity` fails), the new slot is adopted as
best for Bid iff the circular distance measured from the current best
slot to the new slot, `(index - best) mod CAP`, is below half the
capacity, and for Ask iff `(best - index) mod CAP` is below half the
capacity — the reverse orientation of the distances the frozen claim
names, which `c3_counterexample` refutes on the code. -/
theorem c3_adoption_rule (s : OrderBookImpl) (price : Int) (quantity : Nat) (side : Side)
    (hq : 0 < quantity)
    (hslow : (if sideBookOf s side (price_to_index s.anchor_price price) = 0 then
        get_total_quantity s side + quantity
      else get_total_quantity s side - sideBookOf s side (price_to_index s.anchor_price price)
        + quantity) ≠ quantity) :
    (bestIdxOf (apply_update s (Update.Set price quantity side)) side =
        price_to_index s.anchor_price price) ↔
      (match side with
       | Side.Bid => ((price_to_index s.anchor_price price : Int) - (s.best_bid_idx : Int))
            % CAP_I64 < HALF_CAP
       | Side.Ask => ((s.best_ask_idx : Int) - (price_to_index s.anchor_price price : Int))
            % CAP_I64 < HALF_CAP) := by
  rcases side
  · have hslow' : (if s.bids (price_to_index s.anchor_price price) = 0 then
        s.total_bid_quantity + quantity
      else s.total_bid_quantity - s.bids (price_to_index s.anchor_price price) + quantity)
        ≠ quantity := hslow
    unfold apply_update bestIdxOf
    dsimp only
    rw [if_pos hq]
    dsimp only
    rw [if_neg hslow']
    split_ifs with hd
    · exact iff_of_true rfl hd
    · constructor
      · intro heq
        rw [heq, sub_self]
        decide
      · intro hdd
        exact absurd hdd hd
  · have hslow' : (if s.asks (price_to_index s.anchor_price price) = 0 then
        s.total_ask_quantity + quantity
      else s.total_ask_quantity - s.asks (price_to_index s.anchor_price price) + quantity)
        ≠ quantity := hslow
    unfold apply_update bestIdxOf
    dsimp only
    rw [if_pos hq]
    dsimp only
    rw [if_neg hslow']
    split_ifs with hd
    · exact iff_of_true rfl hd
    · constructor
      · intro heq
        rw [heq, sub_self]
        decide
      · intro hdd
        exact absurd hdd hd

theorem c3_adoption_rule_witness :
    (0 < 2) ∧
    ((if sideBookOf (applyUpdates [Update.Set 10005 3 Side.Bid]) Side.Bid
          (price_to_index (applyUpdates [Update.Set 10005 3 Side.Bid]).anchor_price 10006) = 0 then
        get_total_quantity (applyUpdates [Update.Set 10005 3 Side.Bid]) Side.Bid + 2
      else get_total_quantity (applyUpdates [Update.Set 10005 3 Side.Bid]) Side.Bid -
        sideBookOf (applyUpdates [Update.Set 10005 3 Side.Bid]) Side.Bid
          (price_to_index (applyUpdates [Update.Set 10005 3 Side.Bid]).anchor_price 10006) + 2)
        ≠ 2) ∧
    ((bestIdxOf (apply_update (applyUpdates [Update.Set 10005 3 Side.Bid])
          (Update.Set 10006 2 Side.Bid)) Side.Bid =
        price_to_index (applyUpdates [Update.Set 10005 3 Side.Bid]).anchor_price 10006) ↔
      ((price_to_index (applyUpdates [Update.Set 10005 3 Side.Bid]).anchor_price 10006 : Int) -
          ((applyUpdates [Update.Set 10005 3 Side.Bid]).best_bid_idx : Int)) % CAP_I64
        < HALF_CAP) :=
  ⟨by decide, by decide,
    c3_adoption_rule (applyUpdates [Update.Set 10005 3 Side.Bid]) 10006 2 Side.Bid
      (by decide) (by decide)⟩

/-- C3 as frozen is false on the code: with best bid at slot 5 (price
10005), the update `Set(10006, 2, Bid)` takes the slow path and the
code adopts the new slot 6 as best, although the frozen claim's Bid
distance `(best_slot - new_slot) mod CAP = (5 - 6) mod 4096 = 4095` is
not below half the capacity, so the claim says it must not be
adopted. -/
theorem c3_counterexample :
    (0 : Nat) < 2 ∧
    (if sideBookOf (applyUpdates [Update.Set 10005 3 Side.Bid]) Side.Bid
        (price_to_index (applyUpdates [Update.Set 10005 3 Side.Bid]).anchor_price 10006) = 0
      then get_total_quantity (applyUpdates [Update.Set 10005 3 Side.Bid]) Side.Bid + 2
      else get_total_quantity (applyUpdates [Update.Set 10005 3 Side.Bid]) Side.Bid -
        sideBookOf (applyUpdates [Update.Set 10005 3 Side.Bid]) Side.Bid
          (price_to_index (applyUpdates [Update.Set 10005 3 Side.Bid]).anchor_price 10006)
        + 2) ≠ 2 ∧
    bestIdxOf (apply_update (applyUpdates [Update.Set 10005 3 Side.Bid])
        (Update.Set 10006 2 Side.Bid)) Side.Bid =
      price_to_index (applyUpdates [Update.Set 10005 3 Side.Bid]).anchor_price 10006 ∧
    ¬ (((bestIdxOf (applyUpdates [Update.Set 10005 3 Side.Bid]) Side.Bid : Int) -
        (price_to_index (applyUpdates [Update.Set 10005 3 Side.Bid]).anchor_price 10006 : Int))
        % CAP_I64 < HALF_CAP) :=
  ⟨by decide, by decide, by decide, by decide⟩

/-! ### Bounds-checked variants of every array access

The Rust source uses `get_unchecked` / `get_unchecked_mut`.  The
variants below perform the same accesses through `checked_read` /
`checked_write`, which fail (return `none`) on any index outside
`[0, CAP)`.  C5 states that the failure branch is never taken. -/

def checked_read (book : Nat → Nat) (i : Nat) : Option Nat :=
  if i < CAP then some (book i) else none

def checked_write (book : Nat → Nat) (i v : Nat) : Option (Nat → Nat) :=
  if i < CAP then some (Function.update book i v) else none

def scanDownC (book : Nat → Nat) : Nat → Option Nat
  | 0 => some 0
  | i + 1 => (checked_read book i).bind fun q =>
      if 0 < q then some i else scanDownC book i

def scanUpC (book : Nat → Nat) : Nat → Nat → Option Nat
  | 0, _ => some CAP_MASK
  | fuel + 1, i => (checked_read book i).bind fun q =>
      if 0 < q then some i else scanUpC book fuel (i + 1)

def recalculate_best_index_checked (side : Side) (book : Nat → Nat) : Option Nat :=
  match side with
  | .Bid => scanDownC book CAP
  | .Ask => scanUpC book CAP 0

lemma scanDownC_isSome (book : Nat → Nat) : ∀ n, n ≤ CAP → (scanDownC book n).isSome = true := by
  intro n
  induction n with
  | zero => intro _; rfl
  | succ i ih =>
    intro h
    unfold scanDownC checked_read
    rw [if_pos (show i < CAP by omega)]
    show (if 0 < book i then some i else scanDownC book i).isSome = true
    split_ifs
    · rfl
    · exact ih (by omega)

lemma scanUpC_isSome (book : Nat → Nat) :
    ∀ fuel i, fuel + i ≤ CAP → (scanUpC book fuel i).isSome = true := by
  intro fuel
  induction fuel with
  | zero => intro i _; rfl
  | succ f ih =>
    intro i h
    unfold scanUpC checked_read
    rw [if_pos (show i < CAP by omega)]
    show (if 0 < book i then some i else scanUpC book f (i + 1)).isSome = true
    split_ifs
    · rfl
    · exact ih (i + 1) (by omega)

lemma recalculate_best_index_checked_isSome (side : Side) (book : Nat → Nat) :
    (recalculate_best_index_checked side book).isSome = true := by
  rcases side
  · exact scanDownC_isSome book CAP (le_refl _)
  · exact scanUpC_isSome book CAP 0 (by omega)

def apply_update_checked (s : OrderBookImpl) (u : Update) : Option OrderBookImpl :=
  match u with
  | .Set price quantity side =>
    let index := price_to_index s.anchor_price price
    match side with
    | .Bid =>
      (checked_read s.bids index).bind fun old_quantity =>
      if 0 < quantity then
        (checked_write s.bids index quantity).map fun bids' =>
          let total' := if old_quantity = 0 then s.total_bid_quantity + quantity
            else s.total_bid_quantity - old_quantity + quantity
          let best' := if total' = quantity then index
            else if ((index : Int) - (s.best_bid_idx : Int)) % CAP_I64 < HALF_CAP then index
            else s.best_bid_idx
          { s with bids := bids', best_bid_idx := best', total_bid_quantity := total' }
      else if 0 < old_quantity then
        (checked_write s.bids index 0).bind fun bids' =>
          (if index = s.best_bid_idx then recalculate_best_index_checked .Bid bids'
           else some s.best_bid_idx).map fun best' =>
            { s with bids := bids', best_bid_idx := best'
                     total_bid_quantity := s.total_bid_quantity - old_quantity }
      else some s
    | .Ask =>
      (checked_read s.asks index).bind fun old_quantity =>
      if 0 < quantity then
        (checked_write s.asks index quantity).map fun asks' =>
          let total' := if old_quantity = 0 then s.total_ask_quantity + quantity
            else s.total_ask_quantity - old_quantity + quantity
          let best' := if total' = quantity then index
            else if ((s.best_ask_idx : Int) - (index : Int)) % CAP_I64 < HALF_CAP then index
            else s.best_ask_idx
          { s with asks := asks', best_ask_idx := best', total_ask_quantity := total' }
      else if 0 < old_quantity then
        (checked_write s.asks index 0).bind fun asks' =>
          (if index = s.best_ask_idx then recalculate_best_index_checked .Ask asks'
           else some s.best_ask_idx).map fun best' =>
            { s with asks := asks', best_ask_idx := best'
                     total_ask_quantity := s.total_ask_quantity - old_quantity }
      else some s
  | .Remove price side =>
    let index := price_to_index s.anchor_price price
    match side with
    | .Bid =>
      (checked_read s.bids index).bind fun removed_quantity =>
      if 0 < removed_quantity then
        (checked_write s.bids index 0).bind fun bids' =>
          (if index = s.best_bid_idx then recalculate_best_index_checked .Bid bids'
           else some s.best_bid_idx).map fun best' =>
            { s with bids := bids', best_bid_idx := best'
                     total_bid_quantity := s.total_bid_quantity - removed_quantity }
      else some s
    | .Ask =>
      (checked_read s.asks index).bind fun removed_quantity =>
      if 0 < removed_quantity then
        (checked_write s.asks index 0).bind fun asks' =>
          (if index = s.best_ask_idx then recalculate_best_index_checked .Ask asks'
           else some s.best_ask_idx).map fun best' =>
            { s with asks := asks', best_ask_idx := best'
                     total_ask_quantity := s.total_ask_quantity - removed_quantity }
      else some s

def get_quantity_at_checked (s : OrderBookImpl) (price : Int) (side : Side) :
    Option (Option Nat) :=
  let index := price_to_index s.anchor_price price
  (match side with
   | Side.Bid => checked_read s.bids index
   | Side.Ask => checked_read s.asks index).map fun qty =>
    if 0 < qty then some qty else none

def top_levels_down_checked (anchor : Int) (book : Nat → Nat) (n : Nat) :
    Nat → List (Int × Nat) → Option (List (Int × Nat))
  | 0, result => some result
  | i + 1, result => (checked_read book i).bind fun qty =>
    if 0 < qty then
      let result' := result ++ [(index_to_price anchor i, qty)]
      if n ≤ result'.length then some result'
      else top_levels_down_checked anchor book n i result'
    else top_levels_down_checked anchor book n i result

def top_levels_up_checked (anchor : Int) (book : Nat → Nat) (n : Nat) :
    Nat → Nat → List (Int × Nat) → Option (List (Int × Nat))
  | 0, _, result => some result
  | fuel + 1, i, result => (checked_read book i).bind fun qty =>
    if 0 < qty then
      let result' := result ++ [(index_to_price anchor i, qty)]
      if n ≤ result'.length then some result'
      else top_levels_up_checked anchor book n fuel (i + 1) result'
    else top_levels_up_checked anchor book n fuel (i + 1) result

def get_top_levels_checked (s : OrderBookImpl) (side : Side) (n : Nat) :
    Option (List (Int × Nat)) :=
  match side with
  | .Bid => top_levels_down_checked s.anchor_price s.bids n CAP []
  | .Ask => top_levels_up_checked s.anchor_price s.asks n CAP 0 []

lemma top_levels_down_checked_isSome (anchor : Int) (book : Nat → Nat) (n : Nat) :
    ∀ i result, i ≤ CAP → (top_levels_down_checked anchor book n i result).isSome = true := by
  intro i
  induction i with
  | zero => intro result _; rfl
  | succ i ih =>
    intro result h
    unfold top_levels_down_checked checked_read
    rw [if_pos (show i < CAP by omega), Option.some_bind]
    dsimp only
    split_ifs
    · rfl
    · exact ih _ (by omega)
    · exact ih _ (by omega)

lemma top_levels_up_checked_isSome (anchor : Int) (book : Nat → Nat) (n : Nat) :
    ∀ fuel i result, fuel + i ≤ CAP →
      (top_levels_up_checked anchor book n fuel i result).isSome = true := by
  intro fuel
  induction fuel with
  | zero => intro i result _; rfl
  | succ f ih =>
    intro i result h
    unfold top_levels_up_checked checked_read
    rw [if_pos (show i < CAP by omega), Option.some_bind]
    dsimp only
    split_ifs
    · rfl
    · exact ih _ _ (by omega)
    · exact ih _ _ (by omega)

lemma apply_update_checked_isSome (s : OrderBookImpl) (u : Update) :
    (apply_update_checked s u).isSome = true := by
  rcases u with ⟨price, quantity, side⟩ | ⟨price, side⟩ <;> rcases side
  · have hiC := price_to_index_lt s.anchor_price price
    unfold apply_update_checked checked_read checked_write
    dsimp only
    simp only [if_pos hiC, Option.some_bind]
    split_ifs <;>
      first
      | rfl
      | (obtain ⟨b, hb⟩ := Option.isSome_iff_exists.mp
           (recalculate_best_index_checked_isSome Side.Bid
             (Function.update s.bids (price_to_index s.anchor_price price) 0))
         rw [hb]
         rfl)
  · have hiC := price_to_index_lt s.anchor_price price
    unfold apply_update_checked checked_read checked_write
    dsimp only
    simp only [if_pos hiC, Option.some_bind]
    split_ifs <;>
      first
      | rfl
      | (obtain ⟨b, hb⟩ := Option.isSome_iff_exists.mp
           (recalculate_best_index_checked_isSome Side.Ask
             (Function.update s.asks (price_to_index s.anchor_price price) 0))
         rw [hb]
         rfl)
  · have hiC := price_to_index_lt s.anchor_price price
    unfold apply_update_checked checked_read checked_write
    dsimp only
    simp only [if_pos hiC, Option.some_bind]
    split_ifs <;>
      first
      | rfl
      | (obtain ⟨b, hb⟩ := Option.isSome_iff_exists.mp
           (recalculate_best_index_checked_isSome Side.Bid
             (Function.update s.bids (price_to_index s.anchor_price price) 0))
         rw [hb]
         rfl)
  · have hiC := price_to_index_lt s.anchor_price price
    unfold apply_update_checked checked_read checked_write
    dsimp only
    simp only [if_pos hiC, Option.some_bind]
    split_ifs <;>
      first
      | rfl
      | (obtain ⟨b, hb⟩ := Option.isSome_iff_exists.mp
           (recalculate_best_index_checked_isSome Side.Ask
             (Function.update s.asks (price_to_index s.anchor_price price) 0))
         rw [hb]
         rfl)

/-- C5: every array access performed by `apply_update`,
`get_quantity_at`, `get_top_levels` and `recalculate_best_index` uses
an index strictly below `CAP` (either masked with `CAP - 1` or a loop
variable ranging over `0..CAP`), so for every input price — including
prices outside the representable window — no out-of-bounds access
occurs: the bounds-checked variants of these operations never take
their failure branch. -/
theorem c5_no_out_of_bounds (s : OrderBookImpl) (u : Update) (p : Int) (side : Side)
    (n : Nat) (book : Nat → Nat) :
    (apply_update_checked s u).isSome = true ∧
    (get_quantity_at_checked s p side).isSome = true ∧
    (get_top_levels_checked s side n).isSome = true ∧
    (recalculate_best_index_checked side book).isSome = true := by
  refine ⟨apply_update_checked_isSome s u, ?_, ?_,
    recalculate_best_index_checked_isSome side book⟩
  · have hiC := price_to_index_lt s.anchor_price p
    unfold get_quantity_at_checked checked_read
    rcases side <;> (dsimp only; rw [if_pos hiC]; rfl)
  · unfold get_top_levels_checked
    rcases side
    · exact top_levels_down_checked_isSome _ _ _ CAP [] (le_refl _)
    · exact top_levels_up_checked_isSome _ _ _ CAP 0 [] (by omega)

/-! ### Structure of `get_top_levels` -/

lemma top_levels_down_succ (anchor : Int) (book : Nat → Nat) (n i : Nat)
    (result : List (Int × Nat)) :
    top_levels_down anchor book n (i + 1) result =
      if 0 < book i then
        (if n ≤ (result ++ [(index_to_price anchor i, book i)]).length
         then result ++ [(index_to_price anchor i, book i)]
         else top_levels_down anchor book n i (result ++ [(index_to_price anchor i, book i)]))
      else top_levels_down anchor book n i result := rfl

lemma top_levels_down_skip (anchor : Int) (book : Nat → Nat) (n : Nat) :
    ∀ i j result, j ≤ i → (∀ k, j ≤ k → k < i → book k = 0) →
      top_levels_down anchor book n i result = top_levels_down anchor book n j result := by
  intro i
  induction i with
  | zero =>
    intro j result hj _
    have : j = 0 := by omega
    rw [this]
  | succ i ih =>
    intro j result hj hz
    rcases Nat.eq_or_lt_of_le hj with heq | hlt
    · rw [heq]
    · rw [top_levels_down_succ,
        if_neg (show ¬0 < book i by
          have := hz i (by omega) (by omega)
          omega)]
      exact ih j result (by omega) (fun k hk1 hk2 => hz k hk1 (by omega))

lemma top_levels_up_succ (anchor : Int) (book : Nat → Nat) (n fuel i : Nat)
    (result : List (Int × Nat)) :
    top_levels_up anchor book n (fuel + 1) i result =
      if 0 < book i then
        (if n ≤ (result ++ [(index_to_price anchor i, book i)]).length
         then result ++ [(index_to_price anchor i, book i)]
         else top_levels_up anchor book n fuel (i + 1) (result ++ [(index_to_price anchor i, book i)]))
      else top_levels_up anchor book n fuel (i + 1) result := rfl

/-- Characterisation of the Bid-side scan: it appends to the
accumulator the image of a strictly decreasing list of live slots
below the scan start. -/
lemma top_levels_down_spec (anchor : Int) (book : Nat → Nat) (n : Nat) :
    ∀ i result, ∃ js : List Nat,
      top_levels_down anchor book n i result =
        result ++ js.map (fun j => (index_to_price anchor j, book j)) ∧
      js.Chain' (fun a b => b < a) ∧
      ∀ j ∈ js, j < i ∧ 0 < book j := by
  intro i
  induction i with
  | zero =>
    intro result
    exact ⟨[], by simp [top_levels_down], List.chain'_nil, by simp⟩
  | succ i ih =>
    intro result
    rw [top_levels_down_succ]
    split_ifs with hq hlen
    · refine ⟨[i], by simp, ?_, ?_⟩
      · simp
      · intro j hj
        simp at hj
        subst hj
        exact ⟨by omega, hq⟩
    · obtain ⟨js, heq, hchain, hmem⟩ := ih (result ++ [(index_to_price anchor i, book i)])
      refine ⟨i :: js, ?_, ?_, ?_⟩
      · rw [heq]
        simp
      · rcases js with _ | ⟨b, l⟩
        · simp
        · rw [List.chain'_cons]
          exact ⟨(hmem b (by simp)).1, hchain⟩
      · intro j hj
        rcases List.mem_cons.mp hj with h | h
        · subst h
          exact ⟨by omega, hq⟩
        · exact ⟨by have := (hmem j h).1; omega, (hmem j h).2⟩
    · obtain ⟨js, heq, hchain, hmem⟩ := ih result
      refine ⟨js, heq, hchain, fun j hj => ⟨by have := (hmem j hj).1; omega, (hmem j hj).2⟩⟩

/-- Characterisation of the Ask-side scan: it appends the image of a
strictly increasing list of live slots in `[i, i + fuel)`. -/
lemma top_levels_up_spec (anchor : Int) (book : Nat → Nat) (n : Nat) :
    ∀ fuel i result, ∃ js : List Nat,
      top_levels_up anchor book n fuel i result =
        result ++ js.map (fun j => (index_to_price anchor j, book j)) ∧
      js.Chain' (fun a b => a < b) ∧
      ∀ j ∈ js, i ≤ j ∧ j < i + fuel ∧ 0 < book j := by
  intro fuel
  induction fuel with
  | zero =>
    intro i result
    exact ⟨[], by simp [top_levels_up], List.chain'_nil, by simp⟩
  | succ fuel ih =>
    intro i result
    rw [top_levels_up_succ]
    split_ifs with hq hlen
    · refine ⟨[i], by simp, ?_, ?_⟩
      · simp
      · intro j hj
        simp at hj
        subst hj
        exact ⟨le_refl _, by omega, hq⟩
    · obtain ⟨js, heq, hchain, hmem⟩ := ih (i + 1) (result ++ [(index_to_price anchor i, book i)])
      refine ⟨i :: js, ?_, ?_, ?_⟩
      · rw [heq]
        simp
      · rcases js with _ | ⟨b, l⟩
        · simp
        · rw [List.chain'_cons]
          exact ⟨by have := (hmem b (by simp)).1; omega, hchain⟩
      · intro j hj
        rcases List.mem_cons.mp hj with h | h
        · subst h
          exact ⟨le_refl _, by omega, hq⟩
        · obtain ⟨h1, h2, h3⟩ := hmem j h
          exact ⟨by omega, by omega, h3⟩
    · obtain ⟨js, heq, hchain, hmem⟩ := ih (i + 1) result
      refine ⟨js, heq, hchain, fun j hj => ?_⟩
      obtain ⟨h1, h2, h3⟩ := hmem j hj
      exact ⟨by omega, by omega, h3⟩

lemma top_levels_down_length (anchor : Int) (book : Nat → Nat) (n : Nat) :
    ∀ i result, result.length < n →
      (top_levels_down anchor book n i result).length ≤ n := by
  intro i
  induction i with
  | zero =>
    intro result h
    unfold top_levels_down
    omega
  | succ i ih =>
    intro result h
    rw [top_levels_down_succ]
    split_ifs with hq hlen
    · simp
      omega
    · simp at hlen
      exact ih _ (by simp; omega)
    · exact ih _ h

lemma top_levels_down_length_zero (anchor : Int) (book : Nat → Nat) :
    ∀ i, (top_levels_down anchor book 0 i []).length ≤ 1 := by
  intro i
  induction i with
  | zero => simp [top_levels_down]
  | succ i ih =>
    rw [top_levels_down_succ]
    split_ifs with hq hlen
    · simp
    · simp at hlen
    · exact ih

lemma top_levels_up_length (anchor : Int) (book : Nat → Nat) (n : Nat) :
    ∀ fuel i result, result.length < n →
      (top_levels_up anchor book n fuel i result).length ≤ n := by
  intro fuel
  induction fuel with
  | zero =>
    intro i result h
    unfold top_levels_up
    omega
  | succ fuel ih =>
    intro i result h
    rw [top_levels_up_succ]
    split_ifs with hq hlen
    · simp
      omega
    · simp at hlen
      exact ih _ _ (by simp; omega)
    · exact ih _ _ h

lemma top_levels_up_length_zero (anchor : Int) (book : Nat → Nat) :
    ∀ fuel i, (top_levels_up anchor book 0 fuel i []).length ≤ 1 := by
  intro fuel
  induction fuel with
  | zero => intro i; simp [top_levels_up]
  | succ fuel ih =>
    intro i
    rw [top_levels_up_succ]
    split_ifs with hq hlen
    · simp
    · simp at hlen
    · exact ih _

/-- C7 (amended): for every reachable book state, every side and every
`n`, `get_top_levels side n` returns a list of length at most
`max n 1`, and every returned pair has positive quantity.  (For
`n = 0` the scan pushes one level before checking `len >= n`, so a
non-empty side yields one element rather than zero.) -/
theorem c7_top_levels_shape (us : List Update) (side : Side) (n : Nat) :
    (get_top_levels (applyUpdates us) side n).length ≤ max n 1 ∧
    ∀ pq ∈ get_top_levels (applyUpdates us) side n, 0 < pq.2 := by
  constructor
  · rcases side
    · show (top_levels_down _ _ n CAP []).length ≤ max n 1
      rcases n with _ | n
      · simpa using top_levels_down_length_zero _ _ CAP
      · have := top_levels_down_length (applyUpdates us).anchor_price
          (applyUpdates us).bids (n + 1) CAP [] (by simp)
        omega
    · show (top_levels_up _ _ n CAP 0 []).length ≤ max n 1
      rcases n with _ | n
      · simpa using top_levels_up_length_zero _ _ CAP 0
      · have := top_levels_up_length (applyUpdates us).anchor_price
          (applyUpdates us).asks (n + 1) CAP 0 [] (by simp)
        omega
  · rcases side
    · obtain ⟨js, heq, _, hmem⟩ := top_levels_down_spec (applyUpdates us).anchor_price
        (applyUpdates us).bids n CAP []
      show ∀ pq ∈ top_levels_down _ _ n CAP [], 0 < pq.2
      rw [heq]
      intro pq hpq
      simp at hpq
      obtain ⟨j, hj, rfl⟩ := hpq
      exact (hmem j hj).2
    · obtain ⟨js, heq, _, hmem⟩ := top_levels_up_spec (applyUpdates us).anchor_price
        (applyUpdates us).asks n CAP 0 []
      show ∀ pq ∈ top_levels_up _ _ n CAP 0 [], 0 < pq.2
      rw [heq]
      intro pq hpq
      simp at hpq
      obtain ⟨j, hj, rfl⟩ := hpq
      exact (hmem j hj).2.2

/-! ### Price order on a wrap-free segment -/

/-- The live slots of one side do not straddle the wrap boundary of the
`index_to_price` mapping (between slots `2048` and `2049`): they all lie
in the upper-price segment `[0, 2048]` or all in the lower-price segment
`[2049, CAP)`. -/
def noSegMix (book : Nat → Nat) : Prop :=
  (∀ i, i < CAP → book i ≠ 0 → i ≤ 2048) ∨ (∀ i, i < CAP → book i ≠ 0 → 2049 ≤ i)

lemma index_to_price_strict_mono (book : Nat → Nat) (hseg : noSegMix book)
    (i j : Nat) (hiC : i < CAP) (hjC : j < CAP)
    (hbi : 0 < book i) (hbj : 0 < book j) (hij : i < j) :
    index_to_price 10000 i < index_to_price 10000 j := by
  have h1 := index_to_price_eq 10000 i hiC (by norm_num) (by norm_num)
  have h2 := index_to_price_eq 10000 j hjC (by norm_num) (by norm_num)
  rw [h1, h2]
  rcases hseg with h | h
  · have hi := h i hiC (by omega)
    have hj := h j hjC (by omega)
    split_ifs <;> omega
  · have hi := h i hiC (by omega)
    have hj := h j hjC (by omega)
    split_ifs <;> omega

lemma chain'_price_down (book : Nat → Nat) (hseg : noSegMix book) :
    ∀ js : List Nat, js.Chain' (fun a b => b < a) → (∀ j ∈ js, j < CAP ∧ 0 < book j) →
      js.Chain' (fun a b => index_to_price 10000 b < index_to_price 10000 a) := by
  intro js
  induction js with
  | nil => intro _ _; exact List.chain'_nil
  | cons a l ih =>
    intro hch hmem
    rcases l with _ | ⟨b, l'⟩
    · simp
    · rw [List.chain'_cons] at hch ⊢
      refine ⟨?_, ih hch.2 (fun j hj => hmem j (List.mem_cons_of_mem _ hj))⟩
      have ha := hmem a (by simp)
      have hb := hmem b (by simp)
      exact index_to_price_strict_mono book hseg b a hb.1 ha.1 hb.2 ha.2 hch.1

lemma chain'_price_up (book : Nat → Nat) (hseg : noSegMix book) :
    ∀ js : List Nat, js.Chain' (fun a b => a < b) → (∀ j ∈ js, j < CAP ∧ 0 < book j) →
      js.Chain' (fun a b => index_to_price 10000 a < index_to_price 10000 b) := by
  intro js
  induction js with
  | nil => intro _ _; exact List.chain'_nil
  | cons a l ih =>
    intro hch hmem
    rcases l with _ | ⟨b, l'⟩
    · simp
    · rw [List.chain'_cons] at hch ⊢
      refine ⟨?_, ih hch.2 (fun j hj => hmem j (List.mem_cons_of_mem _ hj))⟩
      have ha := hmem a (by simp)
      have hb := hmem b (by simp)
      exact index_to_price_strict_mono book hseg a b ha.1 hb.1 ha.2 hb.2 hch.1

/-- C6 (amended): for every reachable book state, side and `n`, the
list returned by `get_top_levels side n` is in best-to-worst price
order (prices pairwise strictly decreasing for Bid, strictly
increasing for Ask), provided the side's non-zero slots do not
straddle the wrap boundary of the slot-to-price mapping. -/
theorem c6_top_levels_sorted (us : List Update) (side : Side) (n : Nat)
    (hseg : noSegMix (sideBookOf (applyUpdates us) side)) :
    List.Pairwise
      (fun a b : Int × Nat =>
        match side with
        | Side.Bid => b.1 < a.1
        | Side.Ask => a.1 < b.1)
      (get_top_levels (applyUpdates us) side n) := by
  have hanchor : (applyUpdates us).anchor_price = 10000 := anchor_applyUpdates us
  rcases side
  · have hseg2 : noSegMix (applyUpdates us).bids := hseg
    obtain ⟨js, heq, hchain, hmem⟩ := top_levels_down_spec (applyUpdates us).anchor_price
      (applyUpdates us).bids n CAP []
    show List.Pairwise (fun a b : Int × Nat => b.1 < a.1) (top_levels_down _ _ n CAP [])
    rw [heq, List.nil_append]
    have inst : IsTrans (Int × Nat) (fun a b : Int × Nat => b.1 < a.1) :=
      ⟨fun _ _ _ h1 h2 => lt_trans h2 h1⟩
    refine (@List.chain'_iff_pairwise _ _ inst _).mp ?_
    rw [List.chain'_map, hanchor]
    exact chain'_price_down _ hseg2 js hchain (fun j hj => ⟨(hmem j hj).1, (hmem j hj).2⟩)
  · have hseg2 : noSegMix (applyUpdates us).asks := hseg
    obtain ⟨js, heq, hchain, hmem⟩ := top_levels_up_spec (applyUpdates us).anchor_price
      (applyUpdates us).asks n CAP 0 []
    show List.Pairwise (fun a b : Int × Nat => a.1 < b.1) (top_levels_up _ _ n CAP 0 [])
    rw [heq, List.nil_append]
    have inst : IsTrans (Int × Nat) (fun a b : Int × Nat => a.1 < b.1) :=
      ⟨fun _ _ _ h1 h2 => lt_trans h1 h2⟩
    refine (@List.chain'_iff_pairwise _ _ inst _).mp ?_
    rw [List.chain'_map, hanchor]
    exact chain'_price_up _ hseg2 js hchain (fun j hj => ⟨by have := (hmem j hj).2.1; omega,
      (hmem j hj).2.2⟩)

theorem c6_top_levels_sorted_witness :
    noSegMix (sideBookOf (applyUpdates [Update.Set 10005 3 Side.Bid]) Side.Bid) ∧
    List.Pairwise
      (fun a b : Int × Nat =>
        match Side.Bid with
        | Side.Bid => b.1 < a.1
        | Side.Ask => a.1 < b.1)
      (get_top_levels (applyUpdates [Update.Set 10005 3 Side.Bid]) Side.Bid 5) := by
  have hseg : noSegMix (sideBookOf (applyUpdates [Update.Set 10005 3 Side.Bid]) Side.Bid) := by
    left
    intro i hiC hne
    have hne2 : Function.update (fun _ => 0) 5 3 i ≠ 0 := hne
    rcases eq_or_ne i 5 with rfl | h
    · omega
    · rw [Function.update_noteq h] at hne2
      exact absurd rfl hne2
  exact ⟨hseg, c6_top_levels_sorted [Update.Set 10005 3 Side.Bid] Side.Bid 5 hseg⟩

lemma c6_eval :
    get_top_levels (applyUpdates [Update.Set 9999 1 Side.Bid, Update.Set 12048 1 Side.Bid])
      Side.Bid 5 = [(9999, 1), (12048, 1)] := by
  have hz : ∀ k, k < 4096 → 2049 ≤ k ∨ k < 2048 → k ≠ 4095 →
      (applyUpdates [Update.Set 9999 1 Side.Bid, Update.Set 12048 1 Side.Bid]).bids k = 0 := by
    intro k h1 h2 h3
    show Function.update (Function.update (fun _ => 0) (price_to_index (10000 : Int) 9999) 1)
      (price_to_index (10000 : Int) 12048) 1 k = 0
    rw [Function.update_noteq (show k ≠ price_to_index (10000 : Int) 12048 by
      rw [show price_to_index (10000 : Int) 12048 = 2048 by decide]
      omega)]
    rw [Function.update_noteq (show k ≠ price_to_index (10000 : Int) 9999 by
      rw [show price_to_index (10000 : Int) 9999 = 4095 by decide]
      omega)]
  show top_levels_down
    (applyUpdates [Update.Set 9999 1 Side.Bid, Update.Set 12048 1 Side.Bid]).anchor_price
    (applyUpdates [Update.Set 9999 1 Side.Bid, Update.Set 12048 1 Side.Bid]).bids 5 CAP [] = _
  rw [show (applyUpdates [Update.Set 9999 1 Side.Bid,
        Update.Set 12048 1 Side.Bid]).anchor_price = 10000 by decide]
  rw [show CAP = 4095 + 1 from rfl, top_levels_down_succ]
  rw [if_pos (show (0 : Nat) < (applyUpdates [Update.Set 9999 1 Side.Bid,
    Update.Set 12048 1 Side.Bid]).bids 4095 by decide)]
  rw [if_neg (show ¬(5 ≤ (([] : List (Int × Nat)) ++
    [(index_to_price 10000 4095, (applyUpdates [Update.Set 9999 1 Side.Bid,
      Update.Set 12048 1 Side.Bid]).bids 4095)]).length) by simp)]
  rw [top_levels_down_skip 10000 _ 5 4095 2049 _ (by omega)
    (fun k h1 h2 => hz k (by omega) (Or.inl h1) (by omega))]
  rw [show (2049 : Nat) = 2048 + 1 from rfl, top_levels_down_succ]
  rw [if_pos (show (0 : Nat) < (applyUpdates [Update.Set 9999 1 Side.Bid,
    Update.Set 12048 1 Side.Bid]).bids 2048 by decide)]
  rw [if_neg (show ¬(5 ≤ ((([] : List (Int × Nat)) ++
    [(index_to_price 10000 4095, (applyUpdates [Update.Set 9999 1 Side.Bid,
      Update.Set 12048 1 Side.Bid]).bids 4095)]) ++
    [(index_to_price 10000 2048, (applyUpdates [Update.Set 9999 1 Side.Bid,
      Update.Set 12048 1 Side.Bid]).bids 2048)]).length) by simp)]
  rw [top_levels_down_skip 10000 _ 5 2048 0 _ (by omega)
    (fun k h1 h2 => hz k (by omega) (Or.inr h2) (by omega))]
  unfold top_levels_down
  decide

/-- C6 as frozen is false on the code: in the reachable state with bid
levels at 9999 (slot 4095) and 12048 (slot 2048), the Bid scan returns
the levels in increasing price order. -/
theorem c6_counterexample :
    ¬ List.Pairwise (fun a b : Int × Nat => b.1 < a.1)
      (get_top_levels (applyUpdates [Update.Set 9999 1 Side.Bid, Update.Set 12048 1 Side.Bid])
        Side.Bid 5) := by
  rw [c6_eval]
  norm_num [List.pairwise_cons]

lemma c7_eval :
    get_top_levels (applyUpdates [Update.Set 10005 3 Side.Bid]) Side.Bid 0 = [(10005, 3)] := by
  have hz : ∀ k, k < 4096 → 6 ≤ k →
      (applyUpdates [Update.Set 10005 3 Side.Bid]).bids k = 0 := by
    intro k h1 h2
    show Function.update (fun _ => 0) (price_to_index (10000 : Int) 10005) 3 k = 0
    rw [Function.update_noteq (show k ≠ price_to_index (10000 : Int) 10005 by
      rw [show price_to_index (10000 : Int) 10005 = 5 by decide]
      omega)]
  show top_levels_down (applyUpdates [Update.Set 10005 3 Side.Bid]).anchor_price
    (applyUpdates [Update.Set 10005 3 Side.Bid]).bids 0 CAP [] = _
  rw [show (applyUpdates [Update.Set 10005 3 Side.Bid]).anchor_price = 10000 by decide]
  rw [top_levels_down_skip 10000 _ 0 CAP 6 [] (by unfold CAP; omega)
    (fun k h1 h2 => hz k (by unfold CAP at h2; omega) h1)]
  rw [show (6 : Nat) = 5 + 1 from rfl, top_levels_down_succ]
  rw [if_pos (show (0 : Nat) < (applyUpdates [Update.Set 10005 3 Side.Bid]).bids 5 by decide)]
  rw [if_pos (show 0 ≤ (([] : List (Int × Nat)) ++
    [(index_to_price 10000 5, (applyUpdates [Update.Set 10005 3 Side.Bid]).bids 5)]).length
    by simp)]
  decide

/-- C7 as frozen is false on the code for `n = 0`: the scan pushes a
level before checking `result.len() >= n`, so a non-empty side returns
one level even though the claim requires length at most `0`. -/
theorem c7_counterexample :
    ¬ ((get_top_levels (applyUpdates [Update.Set 10005 3 Side.Bid]) Side.Bid 0).length ≤ 0) := by
  rw [c7_eval]
  decide

/-! ### Best-index correctness -/

lemma set_zero_eq_remove (s : OrderBookImpl) (p : Int) (side : Side) :
    apply_update s (Update.Set p 0 side) = apply_update s (Update.Remove p side) := by
  rcases side <;> (unfold apply_update; dsimp only; rw [if_neg (lt_irrefl 0)])

/-- The live slots of one side pairwise fit inside a half-capacity span
in plain (non-circular) index order. -/
def spanOK (book : Nat → Nat) : Prop :=
  ∀ i j, i < CAP → j < CAP → book i ≠ 0 → book j ≠ 0 → i ≤ j → j - i < 2048

/-- The per-state hypothesis of the amended C1: the live slots of the
side fit in a half-capacity span and do not straddle the wrap boundary
of the slot-to-price mapping. -/
def stateH (s : OrderBookImpl) (side : Side) : Prop :=
  noSegMix (sideBookOf s side) ∧ spanOK (sideBookOf s side)

/-- The half-capacity-span hypothesis exactly as the frozen C1 states
it: all non-zero levels lie within a half-capacity circular span of
each other. -/
def half_capacity_span (book : Nat → Nat) : Prop :=
  ∀ i j, i < CAP → j < CAP → book i ≠ 0 → book j ≠ 0 →
    ((i : Int) - j) % CAP_I64 < HALF_CAP ∨ ((j : Int) - i) % CAP_I64 < HALF_CAP

lemma circ_lt_iff (i b : Nat) (h1 : i ≤ b → b - i < 2048) (h2 : b ≤ i → i - b < 2048) :
    (((i : Int) - b) % CAP_I64 < HALF_CAP) ↔ b ≤ i := by
  unfold CAP_I64 HALF_CAP
  omega

lemma pair_le_sumSide (book : Nat → Nat) (i j : Nat) (hi : i < CAP) (hj : j < CAP)
    (hne : i ≠ j) : book i + book j ≤ sumSide book := by
  unfold sumSide
  have hmem : i ∈ Finset.range CAP := Finset.mem_range.mpr hi
  rw [← Finset.add_sum_erase _ book hmem]
  have hjmem : j ∈ (Finset.range CAP).erase i :=
    Finset.mem_erase.mpr ⟨fun h => hne h.symm, Finset.mem_range.mpr hj⟩
  have := Finset.single_le_sum (fun k _ => Nat.zero_le (book k)) hjmem
  omega

lemma sumSide_ne_zero_exists (book : Nat → Nat) (h : sumSide book ≠ 0) :
    ∃ j, j < CAP ∧ book j ≠ 0 := by
  by_contra hall
  push_neg at hall
  apply h
  unfold sumSide
  exact Finset.sum_eq_zero (fun k hk => hall k (Finset.mem_range.mp hk))

lemma scanDown_spec (book : Nat → Nat) :
    ∀ n, (∃ j, j < n ∧ 0 < book j) →
      0 < book (scanDown book n) ∧ scanDown book n < n ∧
      ∀ j, scanDown book n < j → j < n → book j = 0 := by
  intro n
  induction n with
  | zero =>
    rintro ⟨j, hj, _⟩
    omega
  | succ n ih =>
    rintro ⟨j, hj, hbj⟩
    unfold scanDown
    split_ifs with h
    · exact ⟨h, by omega, fun k hk1 hk2 => by omega⟩
    · have hjn : j < n := by
        rcases Nat.lt_succ_iff_lt_or_eq.mp hj with h1 | h1
        · exact h1
        · subst h1; omega
      obtain ⟨r1, r2, r3⟩ := ih ⟨j, hjn, hbj⟩
      refine ⟨r1, by omega, fun k hk1 hk2 => ?_⟩
      rcases Nat.lt_succ_iff_lt_or_eq.mp hk2 with h1 | h1
      · exact r3 k hk1 h1
      · subst h1; omega
    
lemma scanUp_spec (book : Nat → Nat) :
    ∀ fuel i, (∃ j, i ≤ j ∧ j < i + fuel ∧ 0 < book j) →
      0 < book (scanUp book fuel i) ∧ i ≤ scanUp book fuel i ∧
      scanUp book fuel i < i + fuel ∧
      ∀ j, i ≤ j → j < scanUp book fuel i → book j = 0 := by
  intro fuel
  induction fuel with
  | zero =>
    rintro i ⟨j, hj1, hj2, _⟩
    omega
  | succ fuel ih =>
    rintro i ⟨j, hj1, hj2, hbj⟩
    unfold scanUp
    split_ifs with h
    · exact ⟨h, le_refl i, by omega, fun k hk1 hk2 => by omega⟩
    · have hji : i ≠ j := by
        rintro rfl
        omega
      obtain ⟨r1, r2, r3, r4⟩ := ih (i + 1) ⟨j, by omega, by omega, hbj⟩
      refine ⟨r1, by omega, by omega, fun k hk1 hk2 => ?_⟩
      rcases Nat.eq_or_lt_of_le hk1 with h1 | h1
      · subst h1; omega
      · exact r4 k (by omega) hk2

lemma index_to_price_mono (book : Nat → Nat) (hseg : noSegMix book)
    (i j : Nat) (hiC : i < CAP) (hjC : j < CAP)
    (hbi : 0 < book i) (hbj : 0 < book j) (hij : i ≤ j) :
    index_to_price 10000 i ≤ index_to_price 10000 j := by
  rcases Nat.eq_or_lt_of_le hij with h | h
  · subst h; exact le_refl _
  · exact le_of_lt (index_to_price_strict_mono book hseg i j hiC hjC hbi hbj h)

/-- The inductive invariant behind the amended C1: the cached best slot
is in range and, when the side is non-empty, it is a live slot of
extremal price. -/
def bestOK (s : OrderBookImpl) (side : Side) : Prop :=
  bestIdxOf s side < CAP ∧
  (get_total_quantity s side ≠ 0 →
    sideBookOf s side (bestIdxOf s side) ≠ 0 ∧
    ∀ i, i < CAP → sideBookOf s side i ≠ 0 →
      (match side with
       | Side.Bid => index_to_price 10000 i ≤ index_to_price 10000 (bestIdxOf s side)
       | Side.Ask => index_to_price 10000 (bestIdxOf s side) ≤ index_to_price 10000 i))

lemma bestOK_new (side : Side) : bestOK OrderBookImpl.new side := by
  rcases side
  · exact ⟨by decide, fun h => absurd rfl h⟩
  · exact ⟨by decide, fun h => absurd rfl h⟩

lemma scanDown_lt (book : Nat → Nat) : ∀ n, 0 < n → scanDown book n < n := by
  intro n
  induction n with
  | zero => omega
  | succ n ih =>
    intro _
    unfold scanDown
    split_ifs with h
    · omega
    · rcases Nat.eq_zero_or_pos n with rfl | hpos
      · unfold scanDown
        omega
      · have := ih hpos
        omega

lemma scanUp_lt (book : Nat → Nat) :
    ∀ fuel i, i + fuel ≤ CAP → scanUp book fuel i < CAP := by
  intro fuel
  induction fuel with
  | zero =>
    intro i _
    show CAP_MASK < CAP
    decide
  | succ fuel ih =>
    intro i h
    unfold scanUp
    split_ifs with hq
    · omega
    · exact ih (i + 1) (by omega)

lemma bestOK_step_set_bid (s : OrderBookImpl) (p : Int) (q : Nat)
    (hacc : accOK s) (hb : bestOK s Side.Bid)
    (hH : stateH (apply_update s (Update.Set p q Side.Bid)) Side.Bid) :
    bestOK (apply_update s (Update.Set p q Side.Bid)) Side.Bid := by
  have haccB := hacc.1
  obtain ⟨hbC, hbMax⟩ := hb
  have hbC' : s.best_bid_idx < CAP := hbC
  have hiC : price_to_index s.anchor_price p < CAP := price_to_index_lt _ _
  by_cases hq : 0 < q
  · have hs' : apply_update s (Update.Set p q Side.Bid) = { s with
        bids := Function.update s.bids (price_to_index s.anchor_price p) q
        best_bid_idx :=
          if (if s.bids (price_to_index s.anchor_price p) = 0
              then s.total_bid_quantity + q
              else s.total_bid_quantity - s.bids (price_to_index s.anchor_price p) + q) = q
          then price_to_index s.anchor_price p
          else if ((price_to_index s.anchor_price p : Int) - (s.best_bid_idx : Int))
              % CAP_I64 < HALF_CAP
          then price_to_index s.anchor_price p
          else s.best_bid_idx
        total_bid_quantity :=
          if s.bids (price_to_index s.anchor_price p) = 0
          then s.total_bid_quantity + q
          else s.total_bid_quantity - s.bids (price_to_index s.anchor_price p) + q } := by
      unfold apply_update
      dsimp only
      rw [if_pos hq]
    rw [hs'] at hH ⊢
    have hsegB : noSegMix (Function.update s.bids (price_to_index s.anchor_price p) q) := hH.1
    have hspanB : spanOK (Function.update s.bids (price_to_index s.anchor_price p) q) := hH.2
    have hiB' : Function.update s.bids (price_to_index s.anchor_price p) q
        (price_to_index s.anchor_price p) ≠ 0 := by
      rw [Function.update_same]
      omega
    refine ⟨?_, ?_⟩
    · show (if _ then price_to_index s.anchor_price p
        else if _ then price_to_index s.anchor_price p else s.best_bid_idx) < CAP
      split_ifs <;> first | exact hiC | exact hbC'
    · intro hne
      have hne' : (if s.bids (price_to_index s.anchor_price p) = 0
          then s.total_bid_quantity + q
          else s.total_bid_quantity - s.bids (price_to_index s.anchor_price p) + q) ≠ 0 := hne
      by_cases hfast : (if s.bids (price_to_index s.anchor_price p) = 0
          then s.total_bid_quantity + q
          else s.total_bid_quantity - s.bids (price_to_index s.anchor_price p) + q) = q
      · rw [if_pos hfast] at hne ⊢
        refine ⟨hiB', ?_⟩
        intro j hjC hbj
        rcases eq_or_ne j (price_to_index s.anchor_price p) with rfl | hne2
        · exact le_refl _
        · exfalso
          have hbj' : s.bids j ≠ 0 := by
            have hbj2 : Function.update s.bids (price_to_index s.anchor_price p) q j ≠ 0 := hbj
            rw [Function.update_noteq hne2] at hbj2
            exact hbj2
          have hpair := pair_le_sumSide s.bids j (price_to_index s.anchor_price p) hjC hiC hne2
          have hold_le := le_sumSide s.bids (price_to_index s.anchor_price p) hiC
          by_cases hold : s.bids (price_to_index s.anchor_price p) = 0
          · rw [if_pos hold] at hfast
            omega
          · rw [if_neg hold] at hfast
            omega
      · rw [if_neg hfast] at hne ⊢
        have htot : s.total_bid_quantity ≠ 0 := by
          intro h0
          have hold_le := le_sumSide s.bids (price_to_index s.anchor_price p) hiC
          have hold0 : s.bids (price_to_index s.anchor_price p) = 0 := by omega
          apply hfast
          rw [if_pos hold0]
          omega
        obtain ⟨hbLive, hbMax2⟩ := hbMax htot
        have hbLive' : s.bids s.best_bid_idx ≠ 0 := hbLive
        have hbB' : Function.update s.bids (price_to_index s.anchor_price p) q
            s.best_bid_idx ≠ 0 := by
          rcases eq_or_ne s.best_bid_idx (price_to_index s.anchor_price p) with heq | hne2
          · rw [heq, Function.update_same]
            omega
          · rw [Function.update_noteq hne2]
            exact hbLive'
        have hiff := circ_lt_iff (price_to_index s.anchor_price p) s.best_bid_idx
          (fun h => hspanB _ _ hiC hbC' hiB' hbB' h)
          (fun h => hspanB _ _ hbC' hiC hbB' hiB' h)
        by_cases hadopt : ((price_to_index s.anchor_price p : Int) - (s.best_bid_idx : Int))
            % CAP_I64 < HALF_CAP
        · rw [if_pos hadopt]
          have hble : s.best_bid_idx ≤ price_to_index s.anchor_price p := hiff.mp hadopt
          refine ⟨hiB', ?_⟩
          intro j hjC hbj
          show index_to_price 10000 j ≤
            index_to_price 10000 (price_to_index s.anchor_price p)
          rcases eq_or_ne j (price_to_index s.anchor_price p) with rfl | hne2
          · exact le_refl _
          · have hbj' : s.bids j ≠ 0 := by
              have hbj2 : Function.update s.bids (price_to_index s.anchor_price p) q j ≠ 0 := hbj
              rw [Function.update_noteq hne2] at hbj2
              exact hbj2
            have h1 : index_to_price 10000 j ≤ index_to_price 10000 s.best_bid_idx :=
              hbMax2 j hjC hbj'
            have h2 : index_to_price 10000 s.best_bid_idx ≤
                index_to_price 10000 (price_to_index s.anchor_price p) :=
              index_to_price_mono _ hsegB _ _ hbC' hiC
                (by omega) (by omega) hble
            exact le_trans h1 h2
        · rw [if_neg hadopt]
          have hlt : price_to_index s.anchor_price p < s.best_bid_idx := by
            have hnle : ¬ s.best_bid_idx ≤ price_to_index s.anchor_price p :=
              fun h => hadopt (hiff.mpr h)
            omega
          refine ⟨hbB', ?_⟩
          intro j hjC hbj
          show index_to_price 10000 j ≤ index_to_price 10000 s.best_bid_idx
          rcases eq_or_ne j (price_to_index s.anchor_price p) with rfl | hne2
          · exact index_to_price_mono _ hsegB _ _ hiC hbC'
              (by omega) (by omega) (le_of_lt hlt)
          · have hbj' : s.bids j ≠ 0 := by
              have hbj2 : Function.update s.bids (price_to_index s.anchor_price p) q j ≠ 0 := hbj
              rw [Function.update_noteq hne2] at hbj2
              exact hbj2
            exact hbMax2 j hjC hbj'
  · have hq0 : q = 0 := by omega
    subst hq0
    have hacc' := accOK_step s (Update.Set p 0 Side.Bid) ⟨haccB, hacc.2⟩
    by_cases hold : 0 < s.bids (price_to_index s.anchor_price p)
    · have hs' : apply_update s (Update.Set p 0 Side.Bid) = { s with
          bids := Function.update s.bids (price_to_index s.anchor_price p) 0
          best_bid_idx :=
            if price_to_index s.anchor_price p = s.best_bid_idx
            then recalculate_best_index Side.Bid
              (Function.update s.bids (price_to_index s.anchor_price p) 0)
            else s.best_bid_idx
          total_bid_quantity :=
            s.total_bid_quantity - s.bids (price_to_index s.anchor_price p) } := by
        unfold apply_update
        dsimp only
        rw [if_neg (lt_irrefl 0), if_pos hold]
      rw [hs'] at hH ⊢
      rw [hs'] at hacc'
      have hsegB : noSegMix (Function.update s.bids (price_to_index s.anchor_price p) 0) := hH.1
      have haccB' : s.total_bid_quantity - s.bids (price_to_index s.anchor_price p) =
          sumSide (Function.update s.bids (price_to_index s.anchor_price p) 0) := hacc'.1
      refine ⟨?_, ?_⟩
      · show (if price_to_index s.anchor_price p = s.best_bid_idx
            then recalculate_best_index Side.Bid
              (Function.update s.bids (price_to_index s.anchor_price p) 0)
            else s.best_bid_idx) < CAP
        split_ifs with he
        · exact scanDown_lt _ CAP (by decide)
        · exact hbC'
      · intro hne
        have hne' : s.total_bid_quantity - s.bids (price_to_index s.anchor_price p) ≠ 0 := hne
        obtain ⟨j0, hj0C, hj0⟩ := sumSide_ne_zero_exists
          (Function.update s.bids (price_to_index s.anchor_price p) 0) (by omega)
        split_ifs with he
        · obtain ⟨r1, r2, r3⟩ := scanDown_spec
            (Function.update s.bids (price_to_index s.anchor_price p) 0) CAP
            ⟨j0, hj0C, by omega⟩
          refine ⟨?_, ?_⟩
          · show Function.update s.bids (price_to_index s.anchor_price p) 0
              (scanDown (Function.update s.bids (price_to_index s.anchor_price p) 0) CAP) ≠ 0
            omega
          intro j hjC hbj
          have hbj2 : Function.update s.bids (price_to_index s.anchor_price p) 0 j ≠ 0 := hbj
          show index_to_price 10000 j ≤ index_to_price 10000
            (scanDown (Function.update s.bids (price_to_index s.anchor_price p) 0) CAP)
          have hjler : j ≤ scanDown
              (Function.update s.bids (price_to_index s.anchor_price p) 0) CAP := by
            by_contra hgt
            push_neg at hgt
            exact hbj2 (r3 j hgt hjC)
          exact index_to_price_mono _ hsegB _ _ hjC r2 (by omega) r1 hjler
        · have htot : s.total_bid_quantity ≠ 0 := by omega
          obtain ⟨hbLive, hbMax2⟩ := hbMax htot
          have hbne : s.best_bid_idx ≠ price_to_index s.anchor_price p :=
            fun hh => he hh.symm
          have hbB0 : Function.update s.bids (price_to_index s.anchor_price p) 0
              s.best_bid_idx ≠ 0 := by
            rw [Function.update_noteq hbne]
            exact hbLive
          refine ⟨hbB0, ?_⟩
          intro j hjC hbj
          have hbj0 : Function.update s.bids (price_to_index s.anchor_price p) 0 j ≠ 0 := hbj
          have hjne : j ≠ price_to_index s.anchor_price p := by
            intro hh
            rw [hh, Function.update_same] at hbj0
            exact hbj0 rfl
          have hbj' : s.bids j ≠ 0 := by
            rw [Function.update_noteq hjne] at hbj0
            exact hbj0
          exact hbMax2 j hjC hbj'
    · have hs' : apply_update s (Update.Set p 0 Side.Bid) = s := by
        unfold apply_update
        dsimp only
        rw [if_neg (lt_irrefl 0), if_neg hold]
      rw [hs']
      exact ⟨hbC', hbMax⟩

lemma bestOK_step_set_ask (s : OrderBookImpl) (p : Int) (q : Nat)
    (hacc : accOK s) (hb : bestOK s Side.Ask)
    (hH : stateH (apply_update s (Update.Set p q Side.Ask)) Side.Ask) :
    bestOK (apply_update s (Update.Set p q Side.Ask)) Side.Ask := by
  have haccA := hacc.2
  obtain ⟨hbC, hbMax⟩ := hb
  have hbC' : s.best_ask_idx < CAP := hbC
  have hiC : price_to_index s.anchor_price p < CAP := price_to_index_lt _ _
  by_cases hq : 0 < q
  · have hs' : apply_update s (Update.Set p q Side.Ask) = { s with
        asks := Function.update s.asks (price_to_index s.anchor_price p) q
        best_ask_idx :=
          if (if s.asks (price_to_index s.anchor_price p) = 0
              then s.total_ask_quantity + q
              else s.total_ask_quantity - s.asks (price_to_index s.anchor_price p) + q) = q
          then price_to_index s.anchor_price p
          else if ((s.best_ask_idx : Int) - (price_to_index s.anchor_price p : Int))
              % CAP_I64 < HALF_CAP
          then price_to_index s.anchor_price p
          else s.best_ask_idx
        total_ask_quantity :=
          if s.asks (price_to_index s.anchor_price p) = 0
          then s.total_ask_quantity + q
          else s.total_ask_quantity - s.asks (price_to_index s.anchor_price p) + q } := by
      unfold apply_update
      dsimp only
      rw [if_pos hq]
    rw [hs'] at hH ⊢
    have hsegB : noSegMix (Function.update s.asks (price_to_index s.anchor_price p) q) := hH.1
    have hspanB : spanOK (Function.update s.asks (price_to_index s.anchor_price p) q) := hH.2
    have hiB' : Function.update s.asks (price_to_index s.anchor_price p) q
        (price_to_index s.anchor_price p) ≠ 0 := by
      rw [Function.update_same]
      omega
    refine ⟨?_, ?_⟩
    · show (if _ then price_to_index s.anchor_price p
        else if _ then price_to_index s.anchor_price p else s.best_ask_idx) < CAP
      split_ifs <;> first | exact hiC | exact hbC'
    · intro hne
      by_cases hfast : (if s.asks (price_to_index s.anchor_price p) = 0
          then s.total_ask_quantity + q
          else s.total_ask_quantity - s.asks (price_to_index s.anchor_price p) + q) = q
      · rw [if_pos hfast] at hne ⊢
        refine ⟨hiB', ?_⟩
        intro j hjC hbj
        rcases eq_or_ne j (price_to_index s.anchor_price p) with rfl | hne2
        · exact le_refl _
        · exfalso
          have hbj' : s.asks j ≠ 0 := by
            have hbj2 : Function.update s.asks (price_to_index s.anchor_price p) q j ≠ 0 := hbj
            rw [Function.update_noteq hne2] at hbj2
            exact hbj2
          have hpair := pair_le_sumSide s.asks j (price_to_index s.anchor_price p) hjC hiC hne2
          have hold_le := le_sumSide s.asks (price_to_index s.anchor_price p) hiC
          by_cases hold : s.asks (price_to_index s.anchor_price p) = 0
          · rw [if_pos hold] at hfast
            omega
          · rw [if_neg hold] at hfast
            omega
      · rw [if_neg hfast] at hne ⊢
        have htot : s.total_ask_quantity ≠ 0 := by
          intro h0
          have hold_le := le_sumSide s.asks (price_to_index s.anchor_price p) hiC
          have hold0 : s.asks (price_to_index s.anchor_price p) = 0 := by omega
          apply hfast
          rw [if_pos hold0]
          omega
        obtain ⟨hbLive, hbMax2⟩ := hbMax htot
        have hbLive' : s.asks s.best_ask_idx ≠ 0 := hbLive
        have hbB' : Function.update s.asks (price_to_index s.anchor_price p) q
            s.best_ask_idx ≠ 0 := by
          rcases eq_or_ne s.best_ask_idx (price_to_index s.anchor_price p) with heq | hne2
          · rw [heq, Function.update_same]
            omega
          · rw [Function.update_noteq hne2]
            exact hbLive'
        have hiff := circ_lt_iff s.best_ask_idx (price_to_index s.anchor_price p)
          (fun h => hspanB _ _ hbC' hiC hbB' hiB' h)
          (fun h => hspanB _ _ hiC hbC' hiB' hbB' h)
        by_cases hadopt : ((s.best_ask_idx : Int) - (price_to_index s.anchor_price p : Int))
            % CAP_I64 < HALF_CAP
        · rw [if_pos hadopt]
          have hble : price_to_index s.anchor_price p ≤ s.best_ask_idx := hiff.mp hadopt
          refine ⟨hiB', ?_⟩
          intro j hjC hbj
          show index_to_price 10000 (price_to_index s.anchor_price p) ≤
            index_to_price 10000 j
          rcases eq_or_ne j (price_to_index s.anchor_price p) with rfl | hne2
          · exact le_refl _
          · have hbj' : s.asks j ≠ 0 := by
              have hbj2 : Function.update s.asks (price_to_index s.anchor_price p) q j ≠ 0 := hbj
              rw [Function.update_noteq hne2] at hbj2
              exact hbj2
            have h1 : index_to_price 10000 s.best_ask_idx ≤ index_to_price 10000 j :=
              hbMax2 j hjC hbj'
            have h2 : index_to_price 10000 (price_to_index s.anchor_price p) ≤
                index_to_price 10000 s.best_ask_idx :=
              index_to_price_mono _ hsegB _ _ hiC hbC'
                (by omega) (by omega) hble
            exact le_trans h2 h1
        · rw [if_neg hadopt]
          have hlt : s.best_ask_idx < price_to_index s.anchor_price p := by
            have hnle : ¬ price_to_index s.anchor_price p ≤ s.best_ask_idx :=
              fun h => hadopt (hiff.mpr h)
            omega
          refine ⟨hbB', ?_⟩
          intro j hjC hbj
          show index_to_price 10000 s.best_ask_idx ≤ index_to_price 10000 j
          rcases eq_or_ne j (price_to_index s.anchor_price p) with rfl | hne2
          · exact index_to_price_mono _ hsegB _ _ hbC' hiC
              (by omega) (by omega) (le_of_lt hlt)
          · have hbj' : s.asks j ≠ 0 := by
              have hbj2 : Function.update s.asks (price_to_index s.anchor_price p) q j ≠ 0 := hbj
              rw [Function.update_noteq hne2] at hbj2
              exact hbj2
            exact hbMax2 j hjC hbj'
  · have hq0 : q = 0 := by omega
    subst hq0
    have hacc' := accOK_step s (Update.Set p 0 Side.Ask) hacc
    by_cases hold : 0 < s.asks (price_to_index s.anchor_price p)
    · have hs' : apply_update s (Update.Set p 0 Side.Ask) = { s with
          asks := Function.update s.asks (price_to_index s.anchor_price p) 0
          best_ask_idx :=
            if price_to_index s.anchor_price p = s.best_ask_idx
            then recalculate_best_index Side.Ask
              (Function.update s.asks (price_to_index s.anchor_price p) 0)
            else s.best_ask_idx
          total_ask_quantity :=
            s.total_ask_quantity - s.asks (price_to_index s.anchor_price p) } := by
        unfold apply_update
        dsimp only
        rw [if_neg (lt_irrefl 0), if_pos hold]
      rw [hs'] at hH ⊢
      rw [hs'] at hacc'
      have hsegB : noSegMix (Function.update s.asks (price_to_index s.anchor_price p) 0) := hH.1
      have haccB' : s.total_ask_quantity - s.asks (price_to_index s.anchor_price p) =
          sumSide (Function.update s.asks (price_to_index s.anchor_price p) 0) := hacc'.2
      refine ⟨?_, ?_⟩
      · show (if price_to_index s.anchor_price p = s.best_ask_idx
            then recalculate_best_index Side.Ask
              (Function.update s.asks (price_to_index s.anchor_price p) 0)
            else s.best_ask_idx) < CAP
        split_ifs with he
        · exact scanUp_lt _ CAP 0 (by omega)
        · exact hbC'
      · intro hne
        have hne' : s.total_ask_quantity - s.asks (price_to_index s.anchor_price p) ≠ 0 := hne
        obtain ⟨j0, hj0C, hj0⟩ := sumSide_ne_zero_exists
          (Function.update s.asks (price_to_index s.anchor_price p) 0) (by omega)
        split_ifs with he
        · obtain ⟨r1, r2, r3, r4⟩ := scanUp_spec
            (Function.update s.asks (price_to_index s.anchor_price p) 0) CAP 0
            ⟨j0, by omega, by omega, by omega⟩
          refine ⟨?_, ?_⟩
          · show Function.update s.asks (price_to_index s.anchor_price p) 0
              (scanUp (Function.update s.asks (price_to_index s.anchor_price p) 0) CAP 0) ≠ 0
            omega
          intro j hjC hbj
          have hbj2 : Function.update s.asks (price_to_index s.anchor_price p) 0 j ≠ 0 := hbj
          show index_to_price 10000
            (scanUp (Function.update s.asks (price_to_index s.anchor_price p) 0) CAP 0) ≤
            index_to_price 10000 j
          have hjler : scanUp
              (Function.update s.asks (price_to_index s.anchor_price p) 0) CAP 0 ≤ j := by
            by_contra hgt
            push_neg at hgt
            exact hbj2 (r4 j (by omega) hgt)
          exact index_to_price_mono _ hsegB _ _ (by omega) hjC r1 (by omega) hjler
        · have htot : s.total_ask_quantity ≠ 0 := by omega
          obtain ⟨hbLive, hbMax2⟩ := hbMax htot
          have hbne : s.best_ask_idx ≠ price_to_index s.anchor_price p :=
            fun hh => he hh.symm
          have hbB0 : Function.update s.asks (price_to_index s.anchor_price p) 0
              s.best_ask_idx ≠ 0 := by
            rw [Function.update_noteq hbne]
            exact hbLive
          refine ⟨hbB0, ?_⟩
          intro j hjC hbj
          have hbj0 : Function.update s.asks (price_to_index s.anchor_price p) 0 j ≠ 0 := hbj
          have hjne : j ≠ price_to_index s.anchor_price p := by
            intro hh
            rw [hh, Function.update_same] at hbj0
            exact hbj0 rfl
          have hbj' : s.asks j ≠ 0 := by
            rw [Function.update_noteq hjne] at hbj0
            exact hbj0
          exact hbMax2 j hjC hbj'
    · have hs' : apply_update s (Update.Set p 0 Side.Ask) = s := by
        unfold apply_update
        dsimp only
        rw [if_neg (lt_irrefl 0), if_neg hold]
      rw [hs']
      exact ⟨hbC', hbMax⟩

lemma bestOK_cross_bid_update (s : OrderBookImpl) (p : Int) (q : Nat)
    (hb : bestOK s Side.Ask) :
    bestOK (apply_update s (Update.Set p q Side.Bid)) Side.Ask := by
  obtain ⟨e1, e2, e3⟩ : (apply_update s (Update.Set p q Side.Bid)).asks = s.asks ∧
      (apply_update s (Update.Set p q Side.Bid)).best_ask_idx = s.best_ask_idx ∧
      (apply_update s (Update.Set p q Side.Bid)).total_ask_quantity = s.total_ask_quantity := by
    unfold apply_update
    dsimp only
    split_ifs <;> exact ⟨rfl, rfl, rfl⟩
  obtain ⟨hb1, hb2⟩ := hb
  refine ⟨?_, ?_⟩
  · show (apply_update s (Update.Set p q Side.Bid)).best_ask_idx < CAP
    rw [e2]
    exact hb1
  · intro hne
    have hne2 : s.total_ask_quantity ≠ 0 := by
      have h0 : (apply_update s (Update.Set p q Side.Bid)).total_ask_quantity ≠ 0 := hne
      rw [e3] at h0
      exact h0
    obtain ⟨m1, m2⟩ := hb2 hne2
    refine ⟨?_, ?_⟩
    · show (apply_update s (Update.Set p q Side.Bid)).asks
        ((apply_update s (Update.Set p q Side.Bid)).best_ask_idx) ≠ 0
      rw [e1, e2]
      exact m1
    · intro i hiC hbi
      have hbi2 : s.asks i ≠ 0 := by
        have h0 : (apply_update s (Update.Set p q Side.Bid)).asks i ≠ 0 := hbi
        rw [e1] at h0
        exact h0
      show index_to_price 10000 ((apply_update s (Update.Set p q Side.Bid)).best_ask_idx) ≤
        index_to_price 10000 i
      rw [e2]
      exact m2 i hiC hbi2

lemma bestOK_cross_ask_update (s : OrderBookImpl) (p : Int) (q : Nat)
    (hb : bestOK s Side.Bid) :
    bestOK (apply_update s (Update.Set p q Side.Ask)) Side.Bid := by
  obtain ⟨e1, e2, e3⟩ : (apply_update s (Update.Set p q Side.Ask)).bids = s.bids ∧
      (apply_update s (Update.Set p q Side.Ask)).best_bid_idx = s.best_bid_idx ∧
      (apply_update s (Update.Set p q Side.Ask)).total_bid_quantity = s.total_bid_quantity := by
    unfold apply_update
    dsimp only
    split_ifs <;> exact ⟨rfl, rfl, rfl⟩
  obtain ⟨hb1, hb2⟩ := hb
  refine ⟨?_, ?_⟩
  · show (apply_update s (Update.Set p q Side.Ask)).best_bid_idx < CAP
    rw [e2]
    exact hb1
  · intro hne
    have hne2 : s.total_bid_quantity ≠ 0 := by
      have h0 : (apply_update s (Update.Set p q Side.Ask)).total_bid_quantity ≠ 0 := hne
      rw [e3] at h0
      exact h0
    obtain ⟨m1, m2⟩ := hb2 hne2
    refine ⟨?_, ?_⟩
    · show (apply_update s (Update.Set p q Side.Ask)).bids
        ((apply_update s (Update.Set p q Side.Ask)).best_bid_idx) ≠ 0
      rw [e1, e2]
      exact m1
    · intro i hiC hbi
      have hbi2 : s.bids i ≠ 0 := by
        have h0 : (apply_update s (Update.Set p q Side.Ask)).bids i ≠ 0 := hbi
        rw [e1] at h0
        exact h0
      show index_to_price 10000 i ≤
        index_to_price 10000 ((apply_update s (Update.Set p q Side.Ask)).best_bid_idx)
      rw [e2]
      exact m2 i hiC hbi2

lemma bestOK_step (s : OrderBookImpl) (u : Update) (side : Side)
    (hacc : accOK s) (hb : bestOK s side)
    (hH : stateH (apply_update s u) side) :
    bestOK (apply_update s u) side := by
  rcases u with ⟨p, q, σ⟩ | ⟨p, σ⟩
  · rcases σ <;> rcases side
    · exact bestOK_step_set_bid s p q hacc hb hH
    · exact bestOK_cross_bid_update s p q hb
    · exact bestOK_cross_ask_update s p q hb
    · exact bestOK_step_set_ask s p q hacc hb hH
  · rcases σ <;> rcases side <;> rw [← set_zero_eq_remove] at hH ⊢
    · exact bestOK_step_set_bid s p 0 hacc hb hH
    · exact bestOK_cross_bid_update s p 0 hb
    · exact bestOK_cross_ask_update s p 0 hb
    · exact bestOK_step_set_ask s p 0 hacc hb hH

lemma applyUpdates_append_one (us : List Update) (u : Update) :
    applyUpdates (us ++ [u]) = apply_update (applyUpdates us) u := by
  unfold applyUpdates
  rw [List.foldl_append]
  rfl

lemma bestOK_applyUpdates (us : List Update) (side : Side)
    (hH : ∀ k : Nat, stateH (applyUpdates (us.take k)) side) :
    bestOK (applyUpdates us) side := by
  induction us using List.reverseRecOn with
  | nil => exact bestOK_new side
  | append_singleton us u ih =>
    have hpre : ∀ k : Nat, stateH (applyUpdates (us.take k)) side := by
      intro k
      rcases le_or_lt k us.length with h | h
      · have h2 := hH k
        rw [List.take_append_eq_append_take, show k - us.length = 0 by omega,
          List.take_zero, List.append_nil] at h2
        exact h2
      · have h2 := hH us.length
        rw [List.take_append_eq_append_take, Nat.sub_self, List.take_zero,
          List.append_nil, List.take_length] at h2
        rw [List.take_of_length_le (by omega)]
        exact h2
    have hstep : stateH (apply_update (applyUpdates us) u) side := by
      have h2 := hH (us.length + 1)
      rw [List.take_of_length_le (by simp), applyUpdates_append_one] at h2
      exact h2
    rw [applyUpdates_append_one]
    exact bestOK_step (applyUpdates us) u side (accOK_applyUpdates us) (ih hpre) hstep

/-- C1 (amended): for every book state reachable from `new()` by a
sequence of `apply_update` calls, whenever `total_quantity side ≠ 0`
and at every state along the sequence the non-zero levels of that side
lie within a half-capacity span of each other in plain slot order
without straddling the wrap boundary of the slot-to-price mapping
(`stateH`), the price `index_to_price (best_index side)` is the
maximal price among the side's non-zero levels for Bid and the
minimal such price for Ask. -/
theorem c1_best_extremal (us : List Update) (side : Side)
    (hH : ∀ k : Nat, stateH (applyUpdates (us.take k)) side)
    (hne : get_total_quantity (applyUpdates us) side ≠ 0) :
    sideBookOf (applyUpdates us) side (bestIdxOf (applyUpdates us) side) ≠ 0 ∧
    ∀ i, i < CAP → sideBookOf (applyUpdates us) side i ≠ 0 →
      (match side with
       | Side.Bid => index_to_price (applyUpdates us).anchor_price i ≤
           index_to_price (applyUpdates us).anchor_price (bestIdxOf (applyUpdates us) side)
       | Side.Ask => index_to_price (applyUpdates us).anchor_price
             (bestIdxOf (applyUpdates us) side) ≤
           index_to_price (applyUpdates us).anchor_price i) := by
  have hb := bestOK_applyUpdates us side hH
  rw [anchor_applyUpdates us]
  rcases side
  · exact hb.2 hne
  · exact hb.2 hne

theorem c1_best_extremal_witness :
    (∀ k : Nat, stateH (applyUpdates (([Update.Set 10005 3 Side.Bid]).take k)) Side.Bid) ∧
    get_total_quantity (applyUpdates [Update.Set 10005 3 Side.Bid]) Side.Bid ≠ 0 ∧
    (sideBookOf (applyUpdates [Update.Set 10005 3 Side.Bid]) Side.Bid
        (bestIdxOf (applyUpdates [Update.Set 10005 3 Side.Bid]) Side.Bid) ≠ 0 ∧
      ∀ i, i < CAP →
        sideBookOf (applyUpdates [Update.Set 10005 3 Side.Bid]) Side.Bid i ≠ 0 →
        index_to_price (applyUpdates [Update.Set 10005 3 Side.Bid]).anchor_price i ≤
          index_to_price (applyUpdates [Update.Set 10005 3 Side.Bid]).anchor_price
            (bestIdxOf (applyUpdates [Update.Set 10005 3 Side.Bid]) Side.Bid)) := by
  have hH : ∀ k : Nat,
      stateH (applyUpdates (([Update.Set 10005 3 Side.Bid]).take k)) Side.Bid := by
    intro k
    match k with
    | 0 =>
      constructor
      · left
        intro i hiC hne
        exact absurd rfl hne
      · intro i j hiC hjC hbi hbj hij
        exact absurd rfl hbi
    | k + 1 =>
      rw [List.take_of_length_le (by simp)]
      have hval : price_to_index (10000 : Int) 10005 = 5 := by decide
      constructor
      · left
        intro i hiC hne
        have hne2 : Function.update (fun _ => 0) (price_to_index (10000 : Int) 10005) 3 i
            ≠ 0 := hne
        rcases eq_or_ne i (price_to_index (10000 : Int) 10005) with rfl | hd
        · omega
        · rw [Function.update_noteq hd] at hne2
          exact absurd rfl hne2
      · intro i j hiC hjC hbi hbj hij
        have hbi2 : Function.update (fun _ => 0) (price_to_index (10000 : Int) 10005) 3 i
            ≠ 0 := hbi
        have hbj2 : Function.update (fun _ => 0) (price_to_index (10000 : Int) 10005) 3 j
            ≠ 0 := hbj
        have hi5 : i = price_to_index (10000 : Int) 10005 := by
          by_contra hd
          rw [Function.update_noteq hd] at hbi2
          exact hbi2 rfl
        have hj5 : j = price_to_index (10000 : Int) 10005 := by
          by_contra hd
          rw [Function.update_noteq hd] at hbj2
          exact hbj2 rfl
        omega
  exact ⟨hH, by decide, c1_best_extremal [Update.Set 10005 3 Side.Bid] Side.Bid hH (by decide)⟩

/-- The update sequence of the C1 counterexample. -/
def c1trace : List Update :=
  [Update.Set 10000 1 Side.Bid, Update.Set 12047 1 Side.Bid,
   Update.Set 8000 1 Side.Bid, Update.Remove 12047 Side.Bid]

/-- C1 as frozen is false on the code: after the four updates of
`c1trace` the bid side holds levels at prices 10000 (slot 0) and 8000
(slot 2096), which lie within a half-capacity circular span of each
other, yet the cached best bid slot is 2096, whose price 8000 is not
the maximum.  (The span condition was violated at an intermediate
state, which corrupted the cached best index.) -/
theorem c1_counterexample :
    get_total_quantity (applyUpdates c1trace) Side.Bid ≠ 0 ∧
    half_capacity_span (sideBookOf (applyUpdates c1trace) Side.Bid) ∧
    (0 : Nat) < CAP ∧
    sideBookOf (applyUpdates c1trace) Side.Bid 0 ≠ 0 ∧
    ¬ (index_to_price (applyUpdates c1trace).anchor_price 0 ≤
        index_to_price (applyUpdates c1trace).anchor_price
          (bestIdxOf (applyUpdates c1trace) Side.Bid)) := by
  have hmem : ∀ k, sideBookOf (applyUpdates c1trace) Side.Bid k ≠ 0 →
      k = 0 ∨ k = 2096 := by
    intro k h
    replace h : Function.update (Function.update (Function.update (Function.update
        (fun _ => 0) (price_to_index (10000 : Int) 10000) 1)
        (price_to_index (10000 : Int) 12047) 1)
        (price_to_index (10000 : Int) 8000) 1)
        (price_to_index (10000 : Int) 12047) 0 k ≠ 0 := h
    rcases eq_or_ne k (price_to_index (10000 : Int) 12047) with rfl | h1
    · rw [Function.update_same] at h
      exact absurd rfl h
    · rw [Function.update_noteq h1] at h
      rcases eq_or_ne k (price_to_index (10000 : Int) 8000) with rfl | h2
      · right
        decide
      · rw [Function.update_noteq h2, Function.update_noteq h1] at h
        rcases eq_or_ne k (price_to_index (10000 : Int) 10000) with rfl | h3
        · left
          decide
        · rw [Function.update_noteq h3] at h
          exact absurd rfl h
  refine ⟨by decide, ?_, by decide, by decide, by decide⟩
  intro i j hiC hjC hbi hbj
  rcases hmem i hbi with rfl | rfl <;> rcases hmem j hbj with rfl | rfl
  · left
    decide
  · left
    decide
  · right
    decide
  · left
    decide
